import Mathlib

/-!
# Verification of the NoiseVisualizationTool density/enumeration core

Shallow embedding of `src/src/components/Chunk.tsx` (the second, current
revision of the file: `evaluateMathExpression`, `createNoiseEngines`,
`fbm2D`/`fbm3D`, `applyWarp2D`/`applyWarp3D`, `createDensityFunction`,
`cubePositions`).

Modelling conventions:
* JS IEEE-754 doubles are modelled as exact rationals (`ℚ`).  Every concrete
  value exercised by the verified properties is a small dyadic rational on
  which double arithmetic is exact.  Floating-point rounding of intermediate
  sums/products is not modelled.
* The user expression evaluator (`evaluateMathExpression`) builds a host
  function with `new Function('Math', 'return ' + safeExpression)` after a
  chain of regex rewrites.  We model the rewrites character-exactly
  (including the backtracking behaviour of the `^`-to-`Math.pow` regex) and
  the resulting string's evaluation by a small JS expression interpreter.
  Free identifiers other than the bound parameter `Math` resolve in the
  ambient global environment, which is a parameter (`JEnv`) of the model,
  mirroring the scope chain of `new Function`.
* Values that are non-finite, non-numeric, thrown errors, or outside the
  exact-rational fragment (irrational `Math.pow`, trigonometry, string
  values) are collapsed to `none`; the source collapses all of these to the
  same observable outcome via `isFinite(result) ? result : noiseValue` and
  the surrounding `try`/`catch`.
-/

set_option maxHeartbeats 1600000

-- Batteries seals the rational arithmetic; re-open it locally so that the
-- decision procedures can evaluate concrete runs of the pipeline.
attribute [local semireducible] Rat.mul Rat.add Rat.inv Rat.sub Rat.ofScientific

namespace NoiseViz

/-- A character of the rewritten expression text.  The substitution of the
placeholder `N` inserts `N.toString()`; since JS number printing
round-trips exactly, the inserted numeral is kept as one atomic token
carrying its exact value (`lit`), except that the leading minus sign of a
negative value is kept as an ordinary character so that it can interact
with surrounding syntax exactly as the printed text would (e.g. `2-N` with
negative `N` really produces the token `--` in JS). -/
inductive TTok where
  | ch (c : Char)
  | lit (q : ℚ)
deriving DecidableEq

/-- JS word character, as used by the `\b` boundaries of `/\bN\b/g`. -/
def isWordChar (c : Char) : Bool :=
  c.isAlpha || c.isDigit || c = '_'

/-- The token text of a plain string. -/
def strTT (s : String) : List TTok :=
  s.toList.map TTok.ch

/-- The token(s) inserted for one occurrence of `N` (see `TTok`). -/
def numTok (q : ℚ) : List TTok :=
  if q < 0 then [TTok.ch '-', TTok.lit (-q)] else [TTok.lit q]

/-- Scanner for `.replace(/\bN\b/g, N.toString())`: `prev` is the character
before the scan position (`none` at the start of the string). -/
def subNGo (q : ℚ) : Option Char → List Char → List TTok
  | _, [] => []
  | prev, c :: rest =>
    if c = 'N'
        && (match prev with | some p => ! isWordChar p | none => true)
        && (match rest with | r :: _ => ! isWordChar r | [] => true) then
      numTok q ++ subNGo q (some 'N') rest
    else
      TTok.ch c :: subNGo q (some c) rest

/-- `expression.replace(/\bN\b/g, N.toString())` (the following
`.replace(/Math\./g, 'Math.')` of the source is the identity and is not
represented). -/
def subN (s : String) (q : ℚ) : List TTok :=
  subNGo q none s.toList

/-- `.replace(/\|([^|]+)\|/g, 'Math.abs($1)')`: a match is a `|`, then a
maximal nonempty run of non-`|` characters, then a `|`; scanning resumes
after the match, unmatched `|` are copied through.  Structural recursion
on a fuel (each step consumes at least one input token, so
`fuel = ts.length` makes the fuel-out branch unreachable). -/
def absRewriteGo (fuel : ℕ) (ts : List TTok) : List TTok :=
  match fuel with
  | 0 => ts
  | fuel + 1 =>
    match ts with
    | [] => []
    | t :: rest =>
      if t = TTok.ch '|' then
        let interior := rest.takeWhile (fun u => u ≠ TTok.ch '|')
        if interior.length < rest.length ∧ interior ≠ [] then
          strTT "Math.abs(" ++ interior ++
            (TTok.ch ')' :: absRewriteGo fuel (rest.drop (interior.length + 1)))
        else
          TTok.ch '|' :: absRewriteGo fuel rest
      else
        t :: absRewriteGo fuel rest

def absRewrite (ts : List TTok) : List TTok :=
  absRewriteGo ts.length ts

/-- Whitespace for the `\s*` parts of the `^` rewrite regex. -/
def isSpaceTok (t : TTok) : Bool :=
  t = TTok.ch ' ' || t = TTok.ch '\t' || t = TTok.ch '\n' || t = TTok.ch '\r'

/-- Parenthesis characters (the only characters excluded by `[^()]`). -/
def isParenTok (t : TTok) : Bool :=
  t = TTok.ch '(' || t = TTok.ch ')'

/-- Index of the first non-space position at or after `k`. -/
def skipSpacesIdx (ts : List TTok) (k : ℕ) : ℕ :=
  k + ((ts.drop k).takeWhile isSpaceTok).length

/-- `ts[a..b)` as a list. -/
def slice (ts : List TTok) (a b : ℕ) : List TTok :=
  (ts.drop a).take (b - a)

/-- After a candidate end `k` of the first capture group, match
`\s*\^\s*([^()]+|\([^)]*\))`: returns the start and end indices of the
second capture group. -/
def caretRest (ts : List TTok) (k : ℕ) : Option (ℕ × ℕ) :=
  let m := skipSpacesIdx ts k
  if ts[m]? = some (TTok.ch '^') then
    let n := skipSpacesIdx ts (m + 1)
    match ts[n]? with
    | none => none
    | some (TTok.ch '(') =>
      let rest := ts.drop (n + 1)
      let inter := rest.takeWhile (fun u => u ≠ TTok.ch ')')
      if inter.length < rest.length then some (n, n + 1 + inter.length + 1) else none
    | some (TTok.ch ')') => none
    | some _ =>
      let run := (ts.drop n).takeWhile (fun u => ! isParenTok u)
      some (n, n + run.length)
  else none

/-- The replacement text `Math.pow($1, $2)`. -/
def powToks (g1 g2 : List TTok) : List TTok :=
  strTT "Math.pow(" ++ g1 ++ strTT ", " ++ g2 ++ strTT ")"

/-- Attempted match of `([^()]+|\([^)]*\))\s*\^\s*([^()]+|\([^)]*\))` at
index `i`, with the backtracking order of the JS regex engine: the first
alternative `[^()]+` is greedy, shrinking from the right until the rest of
the pattern matches.  On success returns the replacement text and the end
index of the match. -/
def caretMatchAt (ts : List TTok) (i : ℕ) : Option (List TTok × ℕ) :=
  match ts[i]? with
  | none => none
  | some (TTok.ch '(') =>
    let rest := ts.drop (i + 1)
    let inter := rest.takeWhile (fun u => u ≠ TTok.ch ')')
    if inter.length < rest.length then
      let k := i + 1 + inter.length + 1
      (caretRest ts k).map (fun p => (powToks (slice ts i k) (slice ts p.1 p.2), p.2))
    else none
  | some (TTok.ch ')') => none
  | some _ =>
    let run := (ts.drop i).takeWhile (fun u => ! isParenTok u)
    let j := i + run.length
    ((List.range (j - i)).map (fun d => j - d)).findSome? (fun k =>
      (caretRest ts k).map (fun p => (powToks (slice ts i k) (slice ts p.1 p.2), p.2)))

/-- Global-replace scan for the `^` rewrite (resuming after each match).
Structural recursion on a fuel; every step advances the index by at least
one (a successful match spans at least its `^`), so `fuel = ts.length`
makes the fuel-out branch unreachable. -/
def caretGoF (fuel : ℕ) (ts : List TTok) (i : ℕ) : List TTok :=
  match fuel with
  | 0 => []
  | fuel + 1 =>
    match ts[i]? with
    | none => []
    | some t =>
      match caretMatchAt ts i with
      | some (repl, e) =>
        if i < e then repl ++ caretGoF fuel ts e
        else t :: caretGoF fuel ts (i + 1)
      | none => t :: caretGoF fuel ts (i + 1)

def caretGo (ts : List TTok) (i : ℕ) : List TTok :=
  caretGoF ts.length ts i

/-- One application of
`.replace(/([^()]+|\([^)]*\))\s*\^\s*([^()]+|\([^)]*\))/g, 'Math.pow($1, $2)')`
(the source applies the identical replace twice in a row). -/
def caretRewrite (ts : List TTok) : List TTok :=
  caretGo ts 0

/-! ## Lexing the rewritten text as JS tokens

The rewritten string becomes the body of `new Function('Math', 'return ' ++
text)`, i.e. it is lexed and parsed as a JS expression.  We model the JS
token classes that can appear: numeric literals, identifiers, and the
punctuators reachable through the UI string (`+ - * / % ( ) , . | ^ **`
plus the invalid-here update operators `++`/`--`, which JS maximal-munch
lexing produces e.g. from `2-N` with negative `N`).  Any other character
is a syntax error; this loses only exotic inputs (quotes, comparisons,
`~`, `!`) whose JS result no verified property depends on. -/

inductive Tok where
  | num (q : ℚ)
  | id (s : String)
  | plus | minus | star | slash | percent
  | lparen | rparen | comma | dot | pipe | caret
  | dstar          -- the `**` exponentiation punctuator
  | dplus | dminus -- `++` / `--`, never valid in this grammar
deriving DecidableEq

def isIdStart (c : Char) : Bool := c.isAlpha || c = '_' || c = '$'

def isIdChar (c : Char) : Bool := c.isAlpha || c.isDigit || c = '_' || c = '$'

/-- Digits of a decimal numeral to a natural number (most significant first). -/
def digitsVal (cs : List Char) : ℕ :=
  cs.foldl (fun a c => 10 * a + (c.toNat - '0'.toNat)) 0

/-- Leading digit run of a token text. -/
def takeDigits (ts : List TTok) : List Char × List TTok :=
  match ts with
  | TTok.ch c :: rest =>
    if c.isDigit then
      let p := takeDigits rest
      (c :: p.1, p.2)
    else ([], ts)
  | _ => ([], ts)

/-- Lex the optional exponent part `([eE][+-]?digits)?`; `none` means a
malformed exponent (a JS syntax error, e.g. `1e`). -/
def lexExponent (ts : List TTok) : Option (ℤ × List TTok) :=
  match ts with
  | TTok.ch 'e' :: rest => lexExponentSign rest
  | TTok.ch 'E' :: rest => lexExponentSign rest
  | _ => some (0, ts)
where
  lexExponentSign (ts : List TTok) : Option (ℤ × List TTok) :=
    match ts with
    | TTok.ch '+' :: rest =>
      match takeDigits rest with
      | ([], _) => none
      | (ds, rest2) => some ((digitsVal ds : ℤ), rest2)
    | TTok.ch '-' :: rest =>
      match takeDigits rest with
      | ([], _) => none
      | (ds, rest2) => some (-(digitsVal ds : ℤ), rest2)
    | _ =>
      match takeDigits ts with
      | ([], _) => none
      | (ds, rest2) => some ((digitsVal ds : ℤ), rest2)

/-- Value of a numeral `intDigits . fracDigits e exp`. -/
def numeralVal (intDs fracDs : List Char) (ex : ℤ) : ℚ :=
  ((digitsVal intDs : ℚ) + (digitsVal fracDs : ℚ) / (10 : ℚ) ^ fracDs.length) *
    (10 : ℚ) ^ ex

/-- Lex a numeric literal starting with a digit or with `.` followed by a
digit; returns its value and the rest. -/
def lexNumber (ts : List TTok) : Option (ℚ × List TTok) :=
  let p := takeDigits ts
  match p with
  | (intDs, rest) =>
    match rest with
    | TTok.ch '.' :: rest2 =>
      let f := takeDigits rest2
      if intDs = [] ∧ f.1 = [] then none
      else
        (lexExponent f.2).map (fun e => (numeralVal intDs f.1 e.1, e.2))
    | _ =>
      if intDs = [] then none
      else (lexExponent rest).map (fun e => (numeralVal intDs [] e.1, e.2))

/-- Leading identifier-character run. -/
def takeIdChars (ts : List TTok) : List Char × List TTok :=
  match ts with
  | TTok.ch c :: rest =>
    if isIdChar c then
      let p := takeIdChars rest
      (c :: p.1, p.2)
    else ([], ts)
  | _ => ([], ts)

/-- JS lexer over the rewritten token text. -/
def lexGo (fuel : ℕ) (ts : List TTok) : Option (List Tok) :=
  match fuel with
  | 0 => match ts with | [] => some [] | _ => none
  | fuel + 1 =>
    match ts with
    | [] => some []
    | TTok.lit q :: rest => (lexGo fuel rest).map (Tok.num q :: ·)
    | TTok.ch c :: rest =>
      if isSpaceTok (TTok.ch c) then lexGo fuel rest
      else if c.isDigit then
        match lexNumber (TTok.ch c :: rest) with
        | none => none
        | some (q, rest2) => (lexGo fuel rest2).map (Tok.num q :: ·)
      else if c = '.' then
        match rest with
        | TTok.ch d :: _ =>
          if d.isDigit then
            match lexNumber (TTok.ch c :: rest) with
            | none => none
            | some (q, rest2) => (lexGo fuel rest2).map (Tok.num q :: ·)
          else (lexGo fuel rest).map (Tok.dot :: ·)
        | _ => (lexGo fuel rest).map (Tok.dot :: ·)
      else if isIdStart c then
        match takeIdChars (TTok.ch c :: rest) with
        | (cs, rest2) => (lexGo fuel rest2).map (Tok.id (String.mk cs) :: ·)
      else if c = '+' then
        match rest with
        | TTok.ch '+' :: rest2 => (lexGo fuel rest2).map (Tok.dplus :: ·)
        | _ => (lexGo fuel rest).map (Tok.plus :: ·)
      else if c = '-' then
        match rest with
        | TTok.ch '-' :: rest2 => (lexGo fuel rest2).map (Tok.dminus :: ·)
        | _ => (lexGo fuel rest).map (Tok.minus :: ·)
      else if c = '*' then
        match rest with
        | TTok.ch '*' :: rest2 => (lexGo fuel rest2).map (Tok.dstar :: ·)
        | _ => (lexGo fuel rest).map (Tok.star :: ·)
      else if c = '/' then (lexGo fuel rest).map (Tok.slash :: ·)
      else if c = '%' then (lexGo fuel rest).map (Tok.percent :: ·)
      else if c = '(' then (lexGo fuel rest).map (Tok.lparen :: ·)
      else if c = ')' then (lexGo fuel rest).map (Tok.rparen :: ·)
      else if c = ',' then (lexGo fuel rest).map (Tok.comma :: ·)
      else if c = '|' then (lexGo fuel rest).map (Tok.pipe :: ·)
      else if c = '^' then (lexGo fuel rest).map (Tok.caret :: ·)
      else none

/-- Lex a full token text (fuel = length suffices: every step consumes at
least one input token). -/
def lex (ts : List TTok) : Option (List Tok) :=
  lexGo ts.length ts

/-! ## JS values and the expression AST -/

/-- Runtime values reachable by the evaluated expression.  Numbers are
exact rationals; `nonFinite` stands for `NaN`/`±Infinity` (the source only
ever observes them through `isFinite`); `object` carries its callable
members (arguments already coerced to numbers, `none` = not-a-number,
result `none` = non-finite); `fnc` is an extracted method; `undef` is
`undefined` (e.g. an unknown member). -/
inductive JVal where
  | num (q : ℚ)
  | nonFinite
  | object (methods : String → Option (List (Option ℚ) → Option ℚ))
  | fnc (f : List (Option ℚ) → Option ℚ)
  | undef

/-- The ambient global environment seen by the body of
`new Function('Math', ...)`: free identifiers other than the parameter
`Math` resolve here (`none` = `ReferenceError`). -/
def JEnv : Type := String → Option JVal

/-- JS expression AST for the supported grammar. -/
inductive JExpr where
  | num (q : ℚ)
  | ident (s : String)
  | member (e : JExpr) (name : String)
  | call (f : JExpr) (args : List JExpr)
  | neg (e : JExpr)
  | pos (e : JExpr)
  | add (a b : JExpr)
  | sub (a b : JExpr)
  | mul (a b : JExpr)
  | div (a b : JExpr)
  | mod (a b : JExpr)
  | pow (a b : JExpr)   -- the `**` operator
  | bxor (a b : JExpr)  -- `^` (bitwise xor) when it survives the rewrite
  | bor (a b : JExpr)   -- `|` (bitwise or) when it survives the rewrite

/-! ## Parser (recursive descent, fuel-threaded)

Precedence (low to high): `|`, `^`, `+ -`, `* / %`, unary `+ -`, `**`
(with the JS rule that a unary expression cannot be the left operand of
`**`), member/call postfix, primary. -/

mutual

def pPrimary (fuel : ℕ) (tk : List Tok) : Option (JExpr × List Tok) :=
  match fuel with
  | 0 => none
  | fuel + 1 =>
    match tk with
    | Tok.num q :: rest => some (JExpr.num q, rest)
    | Tok.id s :: rest => some (JExpr.ident s, rest)
    | Tok.lparen :: rest =>
      match pOr fuel rest with
      | some (e, Tok.rparen :: rest2) => some (e, rest2)
      | _ => none
    | _ => none

def pArgs (fuel : ℕ) (tk : List Tok) : Option (List JExpr × List Tok) :=
  match fuel with
  | 0 => none
  | fuel + 1 =>
    match pOr fuel tk with
    | none => none
    | some (e, rest) =>
      match rest with
      | Tok.comma :: rest2 =>
        match pArgs fuel rest2 with
        | none => none
        | some (es, rest3) => some (e :: es, rest3)
      | _ => some ([e], rest)

def pPostTail (fuel : ℕ) (e : JExpr) (tk : List Tok) : Option (JExpr × List Tok) :=
  match fuel with
  | 0 => none
  | fuel + 1 =>
    match tk with
    | Tok.dot :: Tok.id s :: rest => pPostTail fuel (JExpr.member e s) rest
    | Tok.lparen :: Tok.rparen :: rest => pPostTail fuel (JExpr.call e []) rest
    | Tok.lparen :: rest =>
      match pArgs fuel rest with
      | some (es, Tok.rparen :: rest2) => pPostTail fuel (JExpr.call e es) rest2
      | _ => none
    | _ => some (e, tk)

def pPost (fuel : ℕ) (tk : List Tok) : Option (JExpr × List Tok) :=
  match fuel with
  | 0 => none
  | fuel + 1 =>
    match pPrimary fuel tk with
    | none => none
    | some (e, rest) => pPostTail fuel e rest

def pExpo (fuel : ℕ) (tk : List Tok) : Option (JExpr × List Tok) :=
  match fuel with
  | 0 => none
  | fuel + 1 =>
    match tk with
    | Tok.minus :: _ => pUnary fuel tk
    | Tok.plus :: _ => pUnary fuel tk
    | _ =>
      match pPost fuel tk with
      | none => none
      | some (e, rest) =>
        match rest with
        | Tok.dstar :: rest2 =>
          match pExpo fuel rest2 with
          | none => none
          | some (r, rest3) => some (JExpr.pow e r, rest3)
        | _ => some (e, rest)

def pUnary (fuel : ℕ) (tk : List Tok) : Option (JExpr × List Tok) :=
  match fuel with
  | 0 => none
  | fuel + 1 =>
    match tk with
    | Tok.minus :: rest =>
      match pUnary fuel rest with
      | none => none
      | some (e, rest2) => some (JExpr.neg e, rest2)
    | Tok.plus :: rest =>
      match pUnary fuel rest with
      | none => none
      | some (e, rest2) => some (JExpr.pos e, rest2)
    | _ => pExpo fuel tk

def pMulTail (fuel : ℕ) (e : JExpr) (tk : List Tok) : Option (JExpr × List Tok) :=
  match fuel with
  | 0 => none
  | fuel + 1 =>
    match tk with
    | Tok.star :: rest =>
      match pExpo fuel rest with
      | none => none
      | some (r, rest2) => pMulTail fuel (JExpr.mul e r) rest2
    | Tok.slash :: rest =>
      match pExpo fuel rest with
      | none => none
      | some (r, rest2) => pMulTail fuel (JExpr.div e r) rest2
    | Tok.percent :: rest =>
      match pExpo fuel rest with
      | none => none
      | some (r, rest2) => pMulTail fuel (JExpr.mod e r) rest2
    | _ => some (e, tk)

def pMul (fuel : ℕ) (tk : List Tok) : Option (JExpr × List Tok) :=
  match fuel with
  | 0 => none
  | fuel + 1 =>
    match pUnary fuel tk with
    | none => none
    | some (e, rest) => pMulTail fuel e rest

def pAddTail (fuel : ℕ) (e : JExpr) (tk : List Tok) : Option (JExpr × List Tok) :=
  match fuel with
  | 0 => none
  | fuel + 1 =>
    match tk with
    | Tok.plus :: rest =>
      match pMul fuel rest with
      | none => none
      | some (r, rest2) => pAddTail fuel (JExpr.add e r) rest2
    | Tok.minus :: rest =>
      match pMul fuel rest with
      | none => none
      | some (r, rest2) => pAddTail fuel (JExpr.sub e r) rest2
    | _ => some (e, tk)

def pAdd (fuel : ℕ) (tk : List Tok) : Option (JExpr × List Tok) :=
  match fuel with
  | 0 => none
  | fuel + 1 =>
    match pMul fuel tk with
    | none => none
    | some (e, rest) => pAddTail fuel e rest

def pXorTail (fuel : ℕ) (e : JExpr) (tk : List Tok) : Option (JExpr × List Tok) :=
  match fuel with
  | 0 => none
  | fuel + 1 =>
    match tk with
    | Tok.caret :: rest =>
      match pAdd fuel rest with
      | none => none
      | some (r, rest2) => pXorTail fuel (JExpr.bxor e r) rest2
    | _ => some (e, tk)

def pXor (fuel : ℕ) (tk : List Tok) : Option (JExpr × List Tok) :=
  match fuel with
  | 0 => none
  | fuel + 1 =>
    match pAdd fuel tk with
    | none => none
    | some (e, rest) => pXorTail fuel e rest

def pOrTail (fuel : ℕ) (e : JExpr) (tk : List Tok) : Option (JExpr × List Tok) :=
  match fuel with
  | 0 => none
  | fuel + 1 =>
    match tk with
    | Tok.pipe :: rest =>
      match pXor fuel rest with
      | none => none
      | some (r, rest2) => pOrTail fuel (JExpr.bor e r) rest2
    | _ => some (e, tk)

def pOr (fuel : ℕ) (tk : List Tok) : Option (JExpr × List Tok) :=
  match fuel with
  | 0 => none
  | fuel + 1 =>
    match pXor fuel tk with
    | none => none
    | some (e, rest) => pOrTail fuel e rest

end

/-- Parse a complete token list as one JS expression (trailing tokens are
a syntax error, as in `return <expr> <garbage>`). -/
def parseExpr (tk : List Tok) : Option JExpr :=
  match pOr (16 * (tk.length + 1)) tk with
  | some (e, []) => some e
  | _ => none

/-! ## Evaluation -/

/-- Truncation toward zero, as in JS `ToInt32`. -/
def qTrunc (q : ℚ) : ℤ :=
  if 0 ≤ q then ⌊q⌋ else ⌈q⌉

/-- JS `ToInt32` of an already-number-coerced value (`none`, i.e.
`NaN`/`Infinity`, becomes `0`). -/
def toInt32 (o : Option ℚ) : ℤ :=
  match o with
  | none => 0
  | some q =>
    let m := qTrunc q % 4294967296
    if m < 2147483648 then m else m - 4294967296

/-- Signed 32-bit value of an unsigned 32-bit natural. -/
def ofUInt32 (n : ℕ) : ℤ :=
  if n < 2147483648 then (n : ℤ) else (n : ℤ) - 4294967296

/-- Unsigned 32-bit representation of a signed 32-bit integer. -/
def toUInt32 (i : ℤ) : ℕ :=
  (i % 4294967296).toNat

/-- `Math.pow` / `**` on exact rationals.  Integer exponents are exact in
doubles for the inputs the properties exercise; a non-integer exponent has
an irrational (or `NaN`) value outside the exact-rational model and is
collapsed to `none` (= non-finite, hence the source's fallback), as is
`0 ** negative` (`Infinity` in JS). -/
def qpow (a b : ℚ) : Option ℚ :=
  if b.den = 1 then
    if 0 ≤ b.num then some (a ^ b.num.toNat)
    else if a = 0 then none
    else some ((a⁻¹) ^ (-b.num).toNat)
  else none

/-- JS `%` (remainder with the sign of the dividend); `x % 0` is `NaN`. -/
def jsRem (a b : ℚ) : Option ℚ :=
  if b = 0 then none else some (a - b * (qTrunc (a / b) : ℚ))

/-- Coercion of a value to a number argument (`none` = `NaN`). -/
def coerceNum (v : JVal) : Option ℚ :=
  match v with
  | JVal.num q => some q
  | _ => none

/-- Result of a host call (`none` = non-finite). -/
def ofOpt (o : Option ℚ) : JVal :=
  match o with
  | some q => JVal.num q
  | none => JVal.nonFinite

/-- The callable members of the `Math` parameter that stay inside the
exact-rational model (`abs`, `pow`, `floor`, `min`, `max`); JS ignores
extra arguments and turns missing ones into `NaN`.  Irrational-valued
members (`sqrt`, `sin`, ...) are not modelled: looking them up yields
`undefined` in the model, i.e. the source's fallback path, rather than
their rounded double value. -/
def mathMethods : String → Option (List (Option ℚ) → Option ℚ) := fun s =>
  if s = "abs" then
    some (fun as => match as[0]? with
      | some (some q) => some |q|
      | _ => none)
  else if s = "pow" then
    some (fun as => match as[0]?, as[1]? with
      | some (some a), some (some b) => qpow a b
      | _, _ => none)
  else if s = "floor" then
    some (fun as => match as[0]? with
      | some (some q) => some (⌊q⌋ : ℚ)
      | _ => none)
  else if s = "min" then
    some (fun as => match as[0]?, as[1]? with
      | some (some a), some (some b) => some (min a b)
      | _, _ => none)
  else if s = "max" then
    some (fun as => match as[0]?, as[1]? with
      | some (some a), some (some b) => some (max a b)
      | _, _ => none)
  else none

/-- The value bound to the function parameter `Math`. -/
def mathObject : JVal := JVal.object mathMethods

/-- Numeric binary operation: both operands must be finite numbers,
anything else propagates as `NaN` (`nonFinite`). -/
def arith (f : ℚ → ℚ → Option ℚ) (a b : JVal) : JVal :=
  match a, b with
  | JVal.num x, JVal.num y => ofOpt (f x y)
  | _, _ => JVal.nonFinite

/-- The result of a binary numeric operator given the operand outcomes. -/
def binRes (f : ℚ → ℚ → Option ℚ) (x y : Except Unit JVal) : Except Unit JVal :=
  match x with
  | Except.error u => Except.error u
  | Except.ok a =>
    match y with
    | Except.error u => Except.error u
    | Except.ok b => Except.ok (arith f a b)

/-- The result of a bitwise operator (`^` xor / `|` or) given the operand
outcomes: JS coerces each side with `ToInt32` (`NaN`/`Infinity` and
non-numbers become `0`), so the result is always a finite number. -/
def bitRes (g : ℕ → ℕ → ℕ) (x y : Except Unit JVal) : Except Unit JVal :=
  match x with
  | Except.error u => Except.error u
  | Except.ok a =>
    match y with
    | Except.error u => Except.error u
    | Except.ok b =>
      Except.ok (JVal.num (ofUInt32
        (g (toUInt32 (toInt32 (coerceNum a))) (toUInt32 (toInt32 (coerceNum b)))) : ℚ))

mutual

/-- Evaluation of the expression body against the ambient globals;
`Except.error` is a thrown `ReferenceError`/`TypeError`. -/
def evalJ (env : JEnv) : JExpr → Except Unit JVal
  | JExpr.num q => Except.ok (JVal.num q)
  | JExpr.ident s =>
    if s = "Math" then Except.ok mathObject
    else
      match env s with
      | some v => Except.ok v
      | none => Except.error ()
  | JExpr.member e name =>
    match evalJ env e with
    | Except.error u => Except.error u
    | Except.ok v =>
      match v with
      | JVal.object o =>
        match o name with
        | some f => Except.ok (JVal.fnc f)
        | none => Except.ok JVal.undef
      | JVal.undef => Except.error ()
      | _ => Except.ok JVal.undef
  | JExpr.call f args =>
    match evalJ env f with
    | Except.error u => Except.error u
    | Except.ok vf =>
      match vf with
      | JVal.fnc g =>
        match evalArgs env args with
        | Except.error u => Except.error u
        | Except.ok as => Except.ok (ofOpt (g as))
      | _ => Except.error ()
  | JExpr.neg e =>
    match evalJ env e with
    | Except.error u => Except.error u
    | Except.ok (JVal.num q) => Except.ok (JVal.num (-q))
    | Except.ok _ => Except.ok JVal.nonFinite
  | JExpr.pos e =>
    match evalJ env e with
    | Except.error u => Except.error u
    | Except.ok (JVal.num q) => Except.ok (JVal.num q)
    | Except.ok _ => Except.ok JVal.nonFinite
  | JExpr.add a b => binRes (fun u v => some (u + v)) (evalJ env a) (evalJ env b)
  | JExpr.sub a b => binRes (fun u v => some (u - v)) (evalJ env a) (evalJ env b)
  | JExpr.mul a b => binRes (fun u v => some (u * v)) (evalJ env a) (evalJ env b)
  | JExpr.div a b => binRes (fun u v => if v = 0 then none else some (u / v)) (evalJ env a) (evalJ env b)
  | JExpr.mod a b => binRes jsRem (evalJ env a) (evalJ env b)
  | JExpr.pow a b => binRes qpow (evalJ env a) (evalJ env b)
  | JExpr.bxor a b => bitRes Nat.xor (evalJ env a) (evalJ env b)
  | JExpr.bor a b => bitRes Nat.lor (evalJ env a) (evalJ env b)

def evalArgs (env : JEnv) : List JExpr → Except Unit (List (Option ℚ))
  | [] => Except.ok []
  | e :: es =>
    match evalJ env e with
    | Except.error u => Except.error u
    | Except.ok v =>
      match evalArgs env es with
      | Except.error u => Except.error u
      | Except.ok rest => Except.ok (coerceNum v :: rest)

end

/-- The final `isFinite(result)` check: only a finite number survives. -/
def finiteResult (v : JVal) : Option ℚ :=
  match v with
  | JVal.num q => some q
  | _ => none

/-- The whole evaluation pipeline of `evaluateMathExpression` up to (and
including) the `isFinite` check: `none` is any of the source's fallback
conditions (regex-rewritten text failing to lex or parse, a thrown error,
or a non-finite result). -/
def evalPipeline (env : JEnv) (expression : String) (noiseValue : ℚ) : Option ℚ :=
  let ts := caretRewrite (caretRewrite (absRewrite (subN expression noiseValue)))
  match lex ts with
  | none => none
  | some tk =>
    match parseExpr tk with
    | none => none
    | some e =>
      match evalJ env e with
      | Except.error _ => none
      | Except.ok v => finiteResult v

/-- `evaluateMathExpression` (Chunk.tsx lines 216-242): regex-rewrites the
user expression, evaluates it as host code via `new Function`, and returns
the result when it is a finite number, otherwise the original noise
value.  The ambient global environment `env` is what the compiled
function's free identifiers see. -/
def evaluateMathExpression (env : JEnv) (expression : String) (noiseValue : ℚ) : ℚ :=
  match evalPipeline env expression noiseValue with
  | some r => r
  | none => noiseValue

/-- An empty global environment: every non-`Math` identifier throws. -/
def emptyEnv : JEnv := fun _ => none

/-! ## The noise pipeline

`NoiseSettings` is the settings record of the `Chunk` props (the App
always supplies one, assembled at src/src/App.tsx; the two fields its
interface marks optional are `Option`).  The FastNoiseLite npm library is
not part of this repository: per spec §4.1 it is a deterministic scalar
sampler, so its `GetNoise` is an abstract pure function (`NoisePrim`) of
the instance's configured state and the coordinates.  An instance's state
(`FNLState`) records exactly the setter calls the repository makes;
`none` is a field the repository never set (still at its library
default).  Numbers in the settings are `ℚ` like all other JS numbers;
grid sizes are `ℤ` (the spec's `GridSpec` declares them `int`). -/

structure NoiseSettings where
  noiseType : String
  rotationType3D : String
  seed : ℚ
  frequency : ℚ
  fractalType : String
  fractalOctaves : ℚ
  fractalLacunarity : ℚ
  fractalGain : ℚ
  fractalWeightedStrength : ℚ
  fractalPingPongStrength : ℚ
  cellularDistanceFunction : String
  cellularReturnType : String
  cellularJitter : ℚ
  domainWarpType : String
  domainWarpAmp : ℚ
  domainWarpSeed : Option ℚ
  domainWarpFrequency : Option ℚ
  domainWarpFractalType : String
  domainWarpFractalOctaves : ℚ
  domainWarpFractalLacunarity : ℚ
  domainWarpFractalGain : ℚ
deriving DecidableEq

/-- State of one `FastNoiseLite` instance: exactly the fields the
repository's setter calls touch, `none` = never set. -/
structure FNLState where
  seed : Option ℚ := none
  frequency : Option ℚ := none
  noiseType : Option String := none
  cellularDistanceFunction : Option String := none
  cellularReturnType : Option String := none
  fractalType : Option String := none
  fractalOctaves : Option ℚ := none
  fractalLacunarity : Option ℚ := none
  fractalGain : Option ℚ := none
  fractalWeightedStrength : Option ℚ := none
  fractalPingPongStrength : Option ℚ := none
  domainWarpType : Option String := none
  domainWarpAmp : Option ℚ := none
  domainWarpFractalType : Option String := none
  domainWarpFractalOctaves : Option ℚ := none
  domainWarpFractalLacunarity : Option ℚ := none
  domainWarpFractalGain : Option ℚ := none
deriving DecidableEq

/-- Modelled from the spec: the FastNoiseLite library (npm
`fastnoise-lite`, declared in src/src/types/fastnoise-lite.d.ts) is not
part of the repository source.  Spec §4.1 requires `GetNoise` to be a
deterministic pure function of the instance configuration and the
coordinates, so the 2D and 3D samplers are abstract functions of the
instance state. -/
structure NoisePrim where
  f2 : FNLState → ℚ → ℚ → ℚ
  f3 : FNLState → ℚ → ℚ → ℚ → ℚ

/-- The base engine configured by `createNoiseEngines` (Chunk.tsx lines
250-303): `SetSeed`, `SetFrequency`, the `noiseType` switch (`Cellular`
also sets the cellular distance function and return type; unknown values
default to `OpenSimplex2`), then the regular-fractal block guarded by
`noiseSettings.fractalType` being truthy and not `'None'`. -/
def baseEngine (ns : NoiseSettings) : FNLState :=
  let st : FNLState := { seed := some ns.seed, frequency := some ns.frequency }
  let st :=
    if ns.noiseType = "Perlin" then { st with noiseType := some "Perlin" }
    else if ns.noiseType = "OpenSimplex2" then { st with noiseType := some "OpenSimplex2" }
    else if ns.noiseType = "OpenSimplex2S" then { st with noiseType := some "OpenSimplex2S" }
    else if ns.noiseType = "Cellular" then
      { st with noiseType := some "Cellular",
                cellularDistanceFunction := some "EuclideanSq",
                cellularReturnType := some "Distance" }
    else if ns.noiseType = "ValueCubic" then { st with noiseType := some "ValueCubic" }
    else if ns.noiseType = "Value" then { st with noiseType := some "Value" }
    else { st with noiseType := some "OpenSimplex2" }
  if ns.fractalType ≠ "" ∧ ns.fractalType ≠ "None" then
    let st :=
      if ns.fractalType = "FBm" then { st with fractalType := some "FBm" }
      else if ns.fractalType = "Ridged" then { st with fractalType := some "Ridged" }
      else if ns.fractalType = "PingPong" then { st with fractalType := some "PingPong" }
      else { st with fractalType := some "None" }
    if ns.fractalType = "FBm" ∨ ns.fractalType = "Ridged" ∨ ns.fractalType = "PingPong" then
      { st with fractalOctaves := some ns.fractalOctaves,
                fractalLacunarity := some ns.fractalLacunarity,
                fractalGain := some ns.fractalGain,
                fractalWeightedStrength := some ns.fractalWeightedStrength,
                fractalPingPongStrength := some ns.fractalPingPongStrength }
    else st
  else st

/-- The engines record returned by `createNoiseEngines`. -/
structure Engines where
  base : FNLState
  warp : Option FNLState
  warpY : Option FNLState

/-- `createNoiseEngines` (Chunk.tsx lines 245-376).  The warp engines
exist only when `domainWarpAmp ≠ 0` or the warp fractal type is not
`'None'`.  Per the library surface declared in
src/src/types/fastnoise-lite.d.ts, `SetDomainWarpFrequency` does not
exist (so that branch is skipped) and the dedicated
`SetDomainWarpFractalType`/`Octaves`/`Lacunarity`/`Gain` API does. -/
def createNoiseEngines (ns : NoiseSettings) : Engines :=
  let seed := ns.seed
  let frequency := ns.frequency
  let base := baseEngine ns
  let warpAmp := ns.domainWarpAmp
  let warpFractalType := ns.domainWarpFractalType
  if warpAmp ≠ 0 ∨ warpFractalType ≠ "None" then
    let wSeed := ns.domainWarpSeed.getD (seed + 9999)
    let wFreq := ns.domainWarpFrequency.getD frequency
    let w : FNLState := { seed := some wSeed, frequency := some wFreq }
    let w := { w with domainWarpType := some (
      if ns.domainWarpType = "OpenSimplex2Reduced" then "OpenSimplex2Reduced"
      else if ns.domainWarpType = "BasicGrid" then "BasicGrid"
      else "OpenSimplex2") }
    let w := { w with domainWarpAmp := some warpAmp }
    let w := { w with domainWarpFractalType := some (
      if warpFractalType = "Progressive" then "Progressive"
      else if warpFractalType = "Independent" then "Independent"
      else "None") }
    let w :=
      if warpFractalType ≠ "None" then
        { w with domainWarpFractalOctaves := some ns.domainWarpFractalOctaves,
                 domainWarpFractalLacunarity := some ns.domainWarpFractalLacunarity,
                 domainWarpFractalGain := some ns.domainWarpFractalGain }
      else w
    let wY : FNLState := { seed := some (wSeed + 1337), frequency := some wFreq }
    ⟨base, some w, some wY⟩
  else
    ⟨base, none, none⟩

/-- Iteration count of `for (let i = 0; i < Math.max(1, oct); i++)` for a
JS number `oct`. -/
def iterCount (oct : ℚ) : ℕ :=
  (Int.ceil (max 1 oct)).toNat

/-- `fbm2D` (Chunk.tsx lines 379-388). -/
def fbm2D (prim : NoisePrim) (n : FNLState) (x y oct lac gain : ℚ) : ℚ :=
  let s := (List.range (iterCount oct)).foldl
    (fun (acc : ℚ × ℚ × ℚ × ℚ) _ =>
      let amp := acc.1
      let freq := acc.2.1
      let sum := acc.2.2.1
      let norm := acc.2.2.2
      (amp * gain, freq * lac, sum + amp * prim.f2 n (x * freq) (y * freq), norm + amp))
    (1, 1, 0, 0)
  s.2.2.1 / (if s.2.2.2 = 0 then 1 else s.2.2.2)

/-- `fbm3D` (Chunk.tsx lines 389-398). -/
def fbm3D (prim : NoisePrim) (n : FNLState) (x y z oct lac gain : ℚ) : ℚ :=
  let s := (List.range (iterCount oct)).foldl
    (fun (acc : ℚ × ℚ × ℚ × ℚ) _ =>
      let amp := acc.1
      let freq := acc.2.1
      let sum := acc.2.2.1
      let norm := acc.2.2.2
      (amp * gain, freq * lac, sum + amp * prim.f3 n (x * freq) (y * freq) (z * freq), norm + amp))
    (1, 1, 0, 0)
  s.2.2.1 / (if s.2.2.2 = 0 then 1 else s.2.2.2)

/-- The props of the `Chunk` component that the density/enumeration core
reads (defaults as in the destructuring at line 211; `updateTrigger` only
forces recomputation and carries no data). -/
structure ChunkProps where
  sizeX : ℤ := 32
  sizeY : ℤ := 32
  sizeZ : ℤ := 32
  isolevel : ℚ := 0
  amplitude : ℚ := 8
  verticalOffset : ℚ := 8
  noiseSettings : NoiseSettings
  use3D : Bool := false
  isSmooth : Bool := false
  mathExpression : String := "N"
  offsetX : ℚ := 0
  offsetZ : ℚ := 0

/-- The pre-read warp parameters `ampW`, `octW`, `lacW`, `gainW`
(Chunk.tsx lines 405-408 and 466-469 and 494-497). -/
def warpParams (ns : NoiseSettings) : ℚ × ℚ × ℚ × ℚ :=
  (ns.domainWarpAmp,
   if ns.domainWarpFractalType ≠ "None" then ns.domainWarpFractalOctaves else 1,
   ns.domainWarpFractalLacunarity,
   ns.domainWarpFractalGain)

/-- `applyWarp2D` (Chunk.tsx lines 410-416). -/
def applyWarp2D (prim : NoisePrim) (engines : Engines)
    (ampW octW lacW gainW : ℚ) (x y : ℚ) : ℚ × ℚ :=
  match engines.warp with
  | none => (x, y)
  | some w =>
    if ampW = 0 then (x, y)
    else
      let wy := engines.warpY.getD w
      let dx := fbm2D prim w x y octW lacW gainW * ampW
      let dy := fbm2D prim wy (x + 123.45) (y - 987.65) octW lacW gainW * ampW
      (x + dx, y + dy)

/-- `applyWarp3D` (Chunk.tsx lines 418-425). -/
def applyWarp3D (prim : NoisePrim) (engines : Engines)
    (ampW octW lacW gainW : ℚ) (x y z : ℚ) : ℚ × ℚ × ℚ :=
  match engines.warp with
  | none => (x, y, z)
  | some w =>
    if ampW = 0 then (x, y, z)
    else
      let wy := engines.warpY.getD w
      let dx := fbm3D prim w x y z octW lacW gainW * ampW
      let dy := fbm3D prim wy (x + 11.11) (y + 22.22) (z - 33.33) octW lacW gainW * ampW
      let dz := fbm3D prim w (x - 44.44) (y + 55.55) (z + 66.66) octW lacW gainW * ampW
      (x + dx, y + dy, z + dz)

/-- `createDensityFunction` (Chunk.tsx lines 400-441). -/
def createDensityFunction (prim : NoisePrim) (env : JEnv) (p : ChunkProps) :
    ℚ → ℚ → ℚ → ℚ :=
  let engines := createNoiseEngines p.noiseSettings
  let w4 := warpParams p.noiseSettings
  fun x y z =>
    if p.use3D then
      let pt := applyWarp3D prim engines w4.1 w4.2.1 w4.2.2.1 w4.2.2.2 (x + p.offsetX) y (z + p.offsetZ)
      let rawNoise := -(prim.f3 engines.base pt.1 pt.2.1 pt.2.2)
      evaluateMathExpression env p.mathExpression rawNoise
    else
      let pt := applyWarp2D prim engines w4.1 w4.2.1 w4.2.2.1 w4.2.2.2 (x + p.offsetX) (z + p.offsetZ)
      let heightNoise := prim.f2 engines.base pt.1 pt.2
      let transformedNoise := evaluateMathExpression env p.mathExpression heightNoise
      let terrainHeight := p.verticalOffset + transformedNoise * p.amplitude
      y - terrainHeight

/-- Grid re-centering `index - size / 2 + 0.5`. -/
def centered (size : ℤ) (i : ℕ) : ℚ :=
  (i : ℚ) - (size : ℚ) / 2 + 0.5

/-- The seed the 2D blocky branch gives the secondary carve engine:
`(noiseSettings?.seed || 12345) + 1000` (note `||`, so a zero seed falls
back to the default 12345 before the offset is added). -/
def carveSeed (ns : NoiseSettings) : ℚ :=
  (if ns.seed = 0 then 12345 else ns.seed) + 1000

/-- The secondary carve engine of the 2D blocky branch (lines 498-499):
a fresh `createNoiseEngines().base` whose seed is then overwritten. -/
def isoEngine (ns : NoiseSettings) : FNLState :=
  { (createNoiseEngines ns).base with seed := some (carveSeed ns) }

/-- Number of iterations of `for (let y = 0; y <= height && y < sizeY; y++)`. -/
def yCount (height sizeY : ℤ) : ℕ :=
  (min (height + 1) sizeY).toNat

/-- `cubePositions` (Chunk.tsx lines 459-535): the value the voxel
enumerator computes when it completes.  The 3D branch repeats the warp of
`applyWarp3D` inline.  The 2D branch precomputes `noiseMap`/`isoNoiseMap`
per column — the caches are written once and read back at the same index,
so they are inlined here as the sampled values; their allocation
`new Array(sizeX * sizeZ)` (lines 500-501) can however throw a
`RangeError` before any loop runs, and that fault path is carried by
`cubePositionsRun` below, of which this definition is the
completed-run value. -/
def cubePositions (prim : NoisePrim) (env : JEnv) (p : ChunkProps) :
    List (ℚ × ℚ × ℚ) :=
  if p.use3D then
    let engines := createNoiseEngines p.noiseSettings
    let w4 := warpParams p.noiseSettings
    (List.range p.sizeX.toNat).flatMap fun (x : ℕ) =>
      (List.range p.sizeY.toNat).flatMap fun (y : ℕ) =>
        (List.range p.sizeZ.toNat).filterMap fun (z : ℕ) =>
          let wx : ℚ := (x : ℚ) + p.offsetX
          let wy : ℚ := (y : ℚ)
          let wz : ℚ := (z : ℚ) + p.offsetZ
          let pt : ℚ × ℚ × ℚ :=
            match engines.warp with
            | some w =>
              if w4.1 ≠ 0 then
                let wyN := engines.warpY.getD w
                let dx := fbm3D prim w wx wy wz w4.2.1 w4.2.2.1 w4.2.2.2 * w4.1
                let dy := fbm3D prim wyN (wx + 11.11) (wy + 22.22) (wz - 33.33) w4.2.1 w4.2.2.1 w4.2.2.2 * w4.1
                let dz := fbm3D prim w (wx - 44.44) (wy + 55.55) (wz + 66.66) w4.2.1 w4.2.2.1 w4.2.2.2 * w4.1
                (wx + dx, wy + dy, wz + dz)
              else (wx, wy, wz)
            | none => (wx, wy, wz)
          let rawNoise := prim.f3 engines.base pt.1 pt.2.1 pt.2.2
          let noiseValue := evaluateMathExpression env p.mathExpression rawNoise
          if noiseValue > p.isolevel then
            some (centered p.sizeX x, centered p.sizeY y, centered p.sizeZ z)
          else none
  else
    let engines := createNoiseEngines p.noiseSettings
    let w4 := warpParams p.noiseSettings
    let iso := isoEngine p.noiseSettings
    (List.range p.sizeX.toNat).flatMap fun (x : ℕ) =>
      (List.range p.sizeZ.toNat).flatMap fun (z : ℕ) =>
        let pt : ℚ × ℚ :=
          match engines.warp with
          | some w =>
            if w4.1 ≠ 0 then
              let wyN := engines.warpY.getD w
              let dx := fbm2D prim w ((x : ℚ) + p.offsetX) ((z : ℚ) + p.offsetZ) w4.2.1 w4.2.2.1 w4.2.2.2 * w4.1
              let dy := fbm2D prim wyN ((x : ℚ) + p.offsetX + 123.45) ((z : ℚ) + p.offsetZ - 987.65) w4.2.1 w4.2.2.1 w4.2.2.2 * w4.1
              ((x : ℚ) + p.offsetX + dx, (z : ℚ) + p.offsetZ + dy)
            else ((x : ℚ) + p.offsetX, (z : ℚ) + p.offsetZ)
          | none => ((x : ℚ) + p.offsetX, (z : ℚ) + p.offsetZ)
        let rawNoise := prim.f2 engines.base pt.1 pt.2
        let isoNoiseValue := prim.f2 iso ((x : ℚ) + 1000) ((z : ℚ) + 1000)
        let transformedNoise := evaluateMathExpression env p.mathExpression rawNoise
        let height : ℤ := ⌊p.verticalOffset + transformedNoise * p.amplitude⌋
        (List.range (yCount height p.sizeY)).filterMap fun (y : ℕ) =>
          if isoNoiseValue > p.isolevel then
            some (centered p.sizeX x, centered p.sizeY y, centered p.sizeZ z)
          else none

/-- A valid JS array length: `new Array(n)` for an integer `n` throws
`RangeError: Invalid array length` unless `0 ≤ n < 2^32`. -/
def jsArrayLengthValid (n : ℤ) : Prop :=
  0 ≤ n ∧ n < 4294967296

instance (n : ℤ) : Decidable (jsArrayLengthValid n) :=
  inferInstanceAs (Decidable (0 ≤ n ∧ n < 4294967296))

/-- The full run of the `cubePositions` memo, fault path included: the 2D
branch starts with `const noiseMap = new Array(sizeX * sizeZ)` and
`const isoNoiseMap = new Array(sizeX * sizeZ)` (lines 500-501), which
throw a `RangeError` when the product is not a valid array length (for
example when it is negative); `none` is that thrown error, `some` the
completed output.  The 3D branch allocates no array and always
completes. -/
def cubePositionsRun (prim : NoisePrim) (env : JEnv) (p : ChunkProps) :
    Option (List (ℚ × ℚ × ℚ)) :=
  if p.use3D then some (cubePositions prim env p)
  else if jsArrayLengthValid (p.sizeX * p.sizeZ) then some (cubePositions prim env p)
  else none

/-! ## Derived sampling forms (verification helpers)

These repeat, verbatim, the sample computations of the enumerator
branches, so that the theorems can name the scalar a given grid cell is
classified by. -/

/-- The raw (un-negated) 3D base-noise sample the 3D enumerator branch
computes for cell `(x, y, z)` (warp inlined as at lines 473-481). -/
def sample3D (prim : NoisePrim) (p : ChunkProps) (x y z : ℕ) : ℚ :=
  let engines := createNoiseEngines p.noiseSettings
  let w4 := warpParams p.noiseSettings
  let wx : ℚ := (x : ℚ) + p.offsetX
  let wy : ℚ := (y : ℚ)
  let wz : ℚ := (z : ℚ) + p.offsetZ
  let pt : ℚ × ℚ × ℚ :=
    match engines.warp with
    | some w =>
      if w4.1 ≠ 0 then
        let wyN := engines.warpY.getD w
        let dx := fbm3D prim w wx wy wz w4.2.1 w4.2.2.1 w4.2.2.2 * w4.1
        let dy := fbm3D prim wyN (wx + 11.11) (wy + 22.22) (wz - 33.33) w4.2.1 w4.2.2.1 w4.2.2.2 * w4.1
        let dz := fbm3D prim w (wx - 44.44) (wy + 55.55) (wz + 66.66) w4.2.1 w4.2.2.1 w4.2.2.2 * w4.1
        (wx + dx, wy + dy, wz + dz)
      else (wx, wy, wz)
    | none => (wx, wy, wz)
  prim.f3 engines.base pt.1 pt.2.1 pt.2.2

/-- The 2D base-noise sample of the 2D enumerator branch for column
`(x, z)` (warp inlined as at lines 505-512). -/
def sample2D (prim : NoisePrim) (p : ChunkProps) (x z : ℕ) : ℚ :=
  let engines := createNoiseEngines p.noiseSettings
  let w4 := warpParams p.noiseSettings
  let pt : ℚ × ℚ :=
    match engines.warp with
    | some w =>
      if w4.1 ≠ 0 then
        let wyN := engines.warpY.getD w
        let dx := fbm2D prim w ((x : ℚ) + p.offsetX) ((z : ℚ) + p.offsetZ) w4.2.1 w4.2.2.1 w4.2.2.2 * w4.1
        let dy := fbm2D prim wyN ((x : ℚ) + p.offsetX + 123.45) ((z : ℚ) + p.offsetZ - 987.65) w4.2.1 w4.2.2.1 w4.2.2.2 * w4.1
        ((x : ℚ) + p.offsetX + dx, (z : ℚ) + p.offsetZ + dy)
      else ((x : ℚ) + p.offsetX, (z : ℚ) + p.offsetZ)
    | none => ((x : ℚ) + p.offsetX, (z : ℚ) + p.offsetZ)
  prim.f2 engines.base pt.1 pt.2

/-- The secondary carve-noise value of the 2D enumerator branch for
column `(x, z)`. -/
def carveValue (prim : NoisePrim) (p : ChunkProps) (x z : ℕ) : ℚ :=
  prim.f2 (isoEngine p.noiseSettings) ((x : ℚ) + 1000) ((z : ℚ) + 1000)

/-- The column height of the 2D enumerator branch. -/
def columnHeight (prim : NoisePrim) (env : JEnv) (p : ChunkProps) (x z : ℕ) : ℤ :=
  ⌊p.verticalOffset + evaluateMathExpression env p.mathExpression (sample2D prim p x z) * p.amplitude⌋

/-! ## Helper lemmas -/

theorem subN_N (v : ℚ) : subN "N" v = numTok v := by
  have h : subN "N" v = numTok v ++ [] := rfl
  rw [h, List.append_nil]

/-- The expression `"N"` evaluates to the noise value itself, in every
ambient environment. -/
theorem evaluate_N (env : JEnv) (v : ℚ) : evaluateMathExpression env "N" v = v := by
  by_cases h : v < 0
  · have h1 : subN "N" v = [TTok.ch '-', TTok.lit (-v)] := by
      rw [subN_N]
      simp [numTok, h]
    have a1 : absRewrite [TTok.ch '-', TTok.lit (-v)] = [TTok.ch '-', TTok.lit (-v)] := rfl
    have a2 : caretRewrite [TTok.ch '-', TTok.lit (-v)] = [TTok.ch '-', TTok.lit (-v)] := rfl
    have a3 : lex [TTok.ch '-', TTok.lit (-v)] = some [Tok.minus, Tok.num (-v)] := rfl
    have a4 : parseExpr [Tok.minus, Tok.num (-v)] = some (JExpr.neg (JExpr.num (-v))) := rfl
    have a5 : evalJ env (JExpr.neg (JExpr.num (-v))) = Except.ok (JVal.num (-(-v))) := rfl
    have h2 : evalPipeline env "N" v = some (-(-v)) := by
      simp only [evalPipeline, h1, a1, a2, a3, a4, a5]
      rfl
    rw [evaluateMathExpression, h2, neg_neg]
  · have h1 : subN "N" v = [TTok.lit v] := by
      rw [subN_N]
      simp [numTok, h]
    have a1 : absRewrite [TTok.lit v] = [TTok.lit v] := rfl
    have a2 : caretRewrite [TTok.lit v] = [TTok.lit v] := rfl
    have a3 : lex [TTok.lit v] = some [Tok.num v] := rfl
    have a4 : parseExpr [Tok.num v] = some (JExpr.num v) := rfl
    have a5 : evalJ env (JExpr.num v) = Except.ok (JVal.num v) := rfl
    have h2 : evalPipeline env "N" v = some v := by
      simp only [evalPipeline, h1, a1, a2, a3, a4, a5]
      rfl
    rw [evaluateMathExpression, h2]

theorem centered_inj {s : ℤ} {a b : ℕ} (h : centered s a = centered s b) : a = b := by
  simp only [centered, add_left_inj, sub_left_inj] at h
  exact_mod_cast h

/-- `binRes` only succeeds when both operands succeeded. -/
theorem binRes_ok {f : ℚ → ℚ → Option ℚ} {x y : Except Unit JVal} {v : JVal}
    (h : binRes f x y = Except.ok v) :
    ∃ a b, x = Except.ok a ∧ y = Except.ok b ∧ binRes f (Except.ok a) (Except.ok b) = Except.ok v := by
  cases x with
  | error u => simp [binRes] at h
  | ok a =>
    cases y with
    | error u => simp [binRes] at h
    | ok b => exact ⟨a, b, rfl, rfl, h⟩

/-- `bitRes` only succeeds when both operands succeeded. -/
theorem bitRes_ok {g : ℕ → ℕ → ℕ} {x y : Except Unit JVal} {v : JVal}
    (h : bitRes g x y = Except.ok v) :
    ∃ a b, x = Except.ok a ∧ y = Except.ok b ∧ bitRes g (Except.ok a) (Except.ok b) = Except.ok v := by
  cases x with
  | error u => simp [bitRes] at h
  | ok a =>
    cases y with
    | error u => simp [bitRes] at h
    | ok b => exact ⟨a, b, rfl, rfl, h⟩

mutual

/-- A successful evaluation under the empty global environment evaluates
identically under every global environment: success means no free
identifier was ever resolved (under `emptyEnv` any lookup throws), so the
computation is closed numeric code over `N` and `Math`. -/
theorem evalJ_env_of_empty : ∀ (e : JExpr) (v : JVal) (env : JEnv),
    evalJ emptyEnv e = Except.ok v → evalJ env e = Except.ok v
  | JExpr.num _, _, _, h => h
  | JExpr.ident s, v, env, h => by
    by_cases hs : s = "Math"
    · simpa [evalJ, hs] using h
    · simp [evalJ, hs, emptyEnv] at h
  | JExpr.member e name, v, env, h => by
    simp only [evalJ] at h ⊢
    cases he : evalJ emptyEnv e with
    | error u => rw [he] at h; exact absurd h (by simp)
    | ok w =>
      rw [he] at h
      rw [evalJ_env_of_empty e w env he]
      exact h
  | JExpr.call f args, v, env, h => by
    simp only [evalJ] at h ⊢
    cases hf : evalJ emptyEnv f with
    | error u => rw [hf] at h; exact absurd h (by simp)
    | ok vf =>
      rw [hf] at h
      rw [evalJ_env_of_empty f vf env hf]
      cases vf with
      | fnc g =>
        simp only at h ⊢
        cases ha : evalArgs emptyEnv args with
        | error u => rw [ha] at h; exact absurd h (by simp)
        | ok as =>
          rw [ha] at h
          rw [evalArgs_env_of_empty args as env ha]
          exact h
      | num q => exact absurd h (by simp)
      | nonFinite => exact absurd h (by simp)
      | object o => exact absurd h (by simp)
      | undef => exact absurd h (by simp)
  | JExpr.neg e, v, env, h => by
    simp only [evalJ] at h ⊢
    cases he : evalJ emptyEnv e with
    | error u => rw [he] at h; exact absurd h (by simp)
    | ok w =>
      rw [he] at h
      rw [evalJ_env_of_empty e w env he]
      exact h
  | JExpr.pos e, v, env, h => by
    simp only [evalJ] at h ⊢
    cases he : evalJ emptyEnv e with
    | error u => rw [he] at h; exact absurd h (by simp)
    | ok w =>
      rw [he] at h
      rw [evalJ_env_of_empty e w env he]
      exact h
  | JExpr.add a b, v, env, h => by
    simp only [evalJ] at h ⊢
    obtain ⟨x, y, hx, hy, hv⟩ := binRes_ok h
    rw [evalJ_env_of_empty a x env hx, evalJ_env_of_empty b y env hy]
    exact hv
  | JExpr.sub a b, v, env, h => by
    simp only [evalJ] at h ⊢
    obtain ⟨x, y, hx, hy, hv⟩ := binRes_ok h
    rw [evalJ_env_of_empty a x env hx, evalJ_env_of_empty b y env hy]
    exact hv
  | JExpr.mul a b, v, env, h => by
    simp only [evalJ] at h ⊢
    obtain ⟨x, y, hx, hy, hv⟩ := binRes_ok h
    rw [evalJ_env_of_empty a x env hx, evalJ_env_of_empty b y env hy]
    exact hv
  | JExpr.div a b, v, env, h => by
    simp only [evalJ] at h ⊢
    obtain ⟨x, y, hx, hy, hv⟩ := binRes_ok h
    rw [evalJ_env_of_empty a x env hx, evalJ_env_of_empty b y env hy]
    exact hv
  | JExpr.mod a b, v, env, h => by
    simp only [evalJ] at h ⊢
    obtain ⟨x, y, hx, hy, hv⟩ := binRes_ok h
    rw [evalJ_env_of_empty a x env hx, evalJ_env_of_empty b y env hy]
    exact hv
  | JExpr.pow a b, v, env, h => by
    simp only [evalJ] at h ⊢
    obtain ⟨x, y, hx, hy, hv⟩ := binRes_ok h
    rw [evalJ_env_of_empty a x env hx, evalJ_env_of_empty b y env hy]
    exact hv
  | JExpr.bxor a b, v, env, h => by
    simp only [evalJ] at h ⊢
    obtain ⟨x, y, hx, hy, hv⟩ := bitRes_ok h
    rw [evalJ_env_of_empty a x env hx, evalJ_env_of_empty b y env hy]
    exact hv
  | JExpr.bor a b, v, env, h => by
    simp only [evalJ] at h ⊢
    obtain ⟨x, y, hx, hy, hv⟩ := bitRes_ok h
    rw [evalJ_env_of_empty a x env hx, evalJ_env_of_empty b y env hy]
    exact hv

theorem evalArgs_env_of_empty : ∀ (es : List JExpr) (vs : List (Option ℚ)) (env : JEnv),
    evalArgs emptyEnv es = Except.ok vs → evalArgs env es = Except.ok vs
  | [], _, _, h => h
  | e :: es, vs, env, h => by
    simp only [evalArgs] at h ⊢
    cases he : evalJ emptyEnv e with
    | error u => rw [he] at h; exact absurd h (by simp)
    | ok w =>
      rw [he] at h
      rw [evalJ_env_of_empty e w env he]
      cases ha : evalArgs emptyEnv es with
      | error u => rw [ha] at h; exact absurd h (by simp)
      | ok rest =>
        rw [ha] at h
        rw [evalArgs_env_of_empty es rest env ha]
        exact h

end

/-- A pipeline run that succeeds under the empty global environment gives
the same value under every global environment. -/
theorem evalPipeline_env_of_some (e : String) (N r : ℚ) (env : JEnv)
    (h : evalPipeline emptyEnv e N = some r) : evalPipeline env e N = some r := by
  simp only [evalPipeline] at h ⊢
  cases hlex : lex (caretRewrite (caretRewrite (absRewrite (subN e N)))) with
  | none => simp [hlex] at h
  | some tk =>
    simp only [hlex] at h ⊢
    cases hp : parseExpr tk with
    | none => simp [hp] at h
    | some ex =>
      simp only [hp] at h ⊢
      cases hj : evalJ emptyEnv ex with
      | error u => simp [hj] at h
      | ok v =>
        rw [hj] at h
        rw [evalJ_env_of_empty ex v env hj]
        exact h

/-! ### Engine state facts -/

theorem baseEngine_seed (ns : NoiseSettings) : (baseEngine ns).seed = some ns.seed := by
  unfold baseEngine
  split_ifs <;> rfl

theorem baseEngine_noiseType_isSome (ns : NoiseSettings) :
    (baseEngine ns).noiseType ≠ none := by
  unfold baseEngine
  split_ifs <;> simp

theorem createNoiseEngines_base (ns : NoiseSettings) :
    (createNoiseEngines ns).base = baseEngine ns := by
  simp only [createNoiseEngines]
  split <;> rfl

theorem isoEngine_seed (ns : NoiseSettings) :
    (isoEngine ns).seed = some (carveSeed ns) := rfl

theorem isoEngine_noiseType (ns : NoiseSettings) :
    (isoEngine ns).noiseType = (baseEngine ns).noiseType := by
  rw [isoEngine, createNoiseEngines_base]

theorem seed_ne_carveSeed (ns : NoiseSettings) : ns.seed ≠ carveSeed ns := by
  unfold carveSeed
  by_cases h : ns.seed = 0
  · rw [if_pos h, h]
    norm_num
  · rw [if_neg h]
    intro hc
    linarith

theorem baseEngine_ne_isoEngine (ns : NoiseSettings) : baseEngine ns ≠ isoEngine ns := by
  intro h
  have h1 := congrArg FNLState.seed h
  rw [baseEngine_seed, isoEngine_seed] at h1
  exact seed_ne_carveSeed ns (Option.some.inj h1)

theorem warp_noiseType_none (ns : NoiseSettings) (w : FNLState)
    (hw : (createNoiseEngines ns).warp = some w) : w.noiseType = none := by
  simp only [createNoiseEngines] at hw
  split at hw
  · simp only [Option.some.injEq] at hw
    subst hw
    split <;> rfl
  · simp at hw

theorem warpY_noiseType_none (ns : NoiseSettings) (w : FNLState)
    (hw : (createNoiseEngines ns).warpY = some w) : w.noiseType = none := by
  simp only [createNoiseEngines] at hw
  split at hw
  · simp only [Option.some.injEq] at hw
    subst hw
    rfl
  · simp at hw

theorem warp_ne_isoEngine (ns : NoiseSettings) (w : FNLState)
    (hw : (createNoiseEngines ns).warp = some w) : w ≠ isoEngine ns := by
  intro h
  have h1 := congrArg FNLState.noiseType h
  rw [warp_noiseType_none ns w hw, isoEngine_noiseType] at h1
  exact baseEngine_noiseType_isSome ns h1.symm

theorem warpY_ne_isoEngine (ns : NoiseSettings) (w : FNLState)
    (hw : (createNoiseEngines ns).warpY = some w) : w ≠ isoEngine ns := by
  intro h
  have h1 := congrArg FNLState.noiseType h
  rw [warpY_noiseType_none ns w hw, isoEngine_noiseType] at h1
  exact baseEngine_noiseType_isSome ns h1.symm

theorem createNoiseEngines_base_ne_isoEngine (ns : NoiseSettings) :
    (createNoiseEngines ns).base ≠ isoEngine ns := by
  rw [createNoiseEngines_base]
  exact baseEngine_ne_isoEngine ns

/-! ### Canonical forms of the enumerator branches -/

theorem cubePositions_use3D (prim : NoisePrim) (env : JEnv) (p : ChunkProps)
    (h : p.use3D = true) :
    cubePositions prim env p =
      (List.range p.sizeX.toNat).flatMap (fun x =>
        (List.range p.sizeY.toNat).flatMap (fun y =>
          (List.range p.sizeZ.toNat).filterMap (fun z =>
            if evaluateMathExpression env p.mathExpression (sample3D prim p x y z) > p.isolevel then
              some (centered p.sizeX x, centered p.sizeY y, centered p.sizeZ z)
            else none))) := by
  simp only [cubePositions, h, if_true]
  rfl

theorem cubePositions_use2D (prim : NoisePrim) (env : JEnv) (p : ChunkProps)
    (h : p.use3D = false) :
    cubePositions prim env p =
      (List.range p.sizeX.toNat).flatMap (fun x =>
        (List.range p.sizeZ.toNat).flatMap (fun z =>
          (List.range (yCount (columnHeight prim env p x z) p.sizeY)).filterMap (fun y =>
            if carveValue prim p x z > p.isolevel then
              some (centered p.sizeX x, centered p.sizeY y, centered p.sizeZ z)
            else none))) := by
  simp only [cubePositions, h, if_false, Bool.false_eq_true]
  rfl

/-! ### Membership characterizations -/

theorem mem_cubePositions3D_iff (prim : NoisePrim) (env : JEnv) (p : ChunkProps)
    (h3 : p.use3D = true) (x y z : ℕ) :
    (centered p.sizeX x, centered p.sizeY y, centered p.sizeZ z) ∈ cubePositions prim env p ↔
      (x < p.sizeX.toNat ∧ y < p.sizeY.toNat ∧ z < p.sizeZ.toNat ∧
        evaluateMathExpression env p.mathExpression (sample3D prim p x y z) > p.isolevel) := by
  rw [cubePositions_use3D prim env p h3]
  simp only [List.mem_flatMap, List.mem_filterMap, List.mem_range]
  constructor
  · rintro ⟨a, ha, b, hb, c, hc, hsome⟩
    by_cases hcond : evaluateMathExpression env p.mathExpression (sample3D prim p a b c) > p.isolevel
    · rw [if_pos hcond] at hsome
      have ht := Option.some.inj hsome
      have h1 : a = x := centered_inj (congrArg Prod.fst ht)
      have h2 : b = y := centered_inj (congrArg (fun q => q.2.1) ht)
      have h3 : c = z := centered_inj (congrArg (fun q => q.2.2) ht)
      subst h1; subst h2; subst h3
      exact ⟨ha, hb, hc, hcond⟩
    · rw [if_neg hcond] at hsome
      exact absurd hsome (by simp)
  · rintro ⟨hx, hy, hz, hgt⟩
    exact ⟨x, hx, y, hy, z, hz, by rw [if_pos hgt]⟩

theorem mem_cubePositions2D_iff (prim : NoisePrim) (env : JEnv) (p : ChunkProps)
    (h2 : p.use3D = false) (x y z : ℕ) :
    (centered p.sizeX x, centered p.sizeY y, centered p.sizeZ z) ∈ cubePositions prim env p ↔
      (x < p.sizeX.toNat ∧ z < p.sizeZ.toNat ∧
        y < yCount (columnHeight prim env p x z) p.sizeY ∧
        carveValue prim p x z > p.isolevel) := by
  rw [cubePositions_use2D prim env p h2]
  simp only [List.mem_flatMap, List.mem_filterMap, List.mem_range]
  constructor
  · rintro ⟨a, ha, c, hc, b, hb, hsome⟩
    by_cases hcond : carveValue prim p a c > p.isolevel
    · rw [if_pos hcond] at hsome
      have ht := Option.some.inj hsome
      have h1 : a = x := centered_inj (congrArg Prod.fst ht)
      have hy : b = y := centered_inj (congrArg (fun q => q.2.1) ht)
      have h3 : c = z := centered_inj (congrArg (fun q => q.2.2) ht)
      subst h1; subst hy; subst h3
      exact ⟨ha, hc, hb, hcond⟩
    · rw [if_neg hcond] at hsome
      exact absurd hsome (by simp)
  · rintro ⟨hx, hz, hy, hgt⟩
    exact ⟨x, hx, z, hz, y, hy, by rw [if_pos hgt]⟩

/-! ### Changing the sampler at one engine state

`overridePrim prim st0 g2 g3` is `prim` with the noise field of the single
engine state `st0` replaced; it expresses "the value of the secondary
carve field" as something that can be varied independently. -/

def overridePrim (prim : NoisePrim) (st0 : FNLState)
    (g2 : ℚ → ℚ → ℚ) (g3 : ℚ → ℚ → ℚ → ℚ) : NoisePrim where
  f2 := fun st x y => if st = st0 then g2 x y else prim.f2 st x y
  f3 := fun st x y z => if st = st0 then g3 x y z else prim.f3 st x y z

theorem fbm2D_override (prim : NoisePrim) (st0 : FNLState) (g2 : ℚ → ℚ → ℚ)
    (g3 : ℚ → ℚ → ℚ → ℚ) (st : FNLState) (hne : st ≠ st0) (x y o l g : ℚ) :
    fbm2D (overridePrim prim st0 g2 g3) st x y o l g = fbm2D prim st x y o l g := by
  unfold fbm2D
  simp [overridePrim, hne]

theorem fbm3D_override (prim : NoisePrim) (st0 : FNLState) (g2 : ℚ → ℚ → ℚ)
    (g3 : ℚ → ℚ → ℚ → ℚ) (st : FNLState) (hne : st ≠ st0) (x y z o l g : ℚ) :
    fbm3D (overridePrim prim st0 g2 g3) st x y z o l g = fbm3D prim st x y z o l g := by
  unfold fbm3D
  simp [overridePrim, hne]

theorem applyWarp2D_override (prim : NoisePrim) (st0 : FNLState) (g2 : ℚ → ℚ → ℚ)
    (g3 : ℚ → ℚ → ℚ → ℚ) (e : Engines) (a o l g x y : ℚ)
    (hw : ∀ w, e.warp = some w → w ≠ st0)
    (hwy : ∀ w, e.warpY = some w → w ≠ st0) :
    applyWarp2D (overridePrim prim st0 g2 g3) e a o l g x y =
      applyWarp2D prim e a o l g x y := by
  unfold applyWarp2D
  cases hwe : e.warp with
  | none => rfl
  | some w =>
    by_cases ha : a = 0
    · simp [ha]
    · have hw1 := hw w hwe
      cases hwye : e.warpY with
      | none => simp [ha, hwye, fbm2D_override prim st0 g2 g3 w hw1]
      | some wy =>
        have hw2 := hwy wy hwye
        simp [ha, hwye, fbm2D_override prim st0 g2 g3 w hw1,
          fbm2D_override prim st0 g2 g3 wy hw2]

theorem applyWarp3D_override (prim : NoisePrim) (st0 : FNLState) (g2 : ℚ → ℚ → ℚ)
    (g3 : ℚ → ℚ → ℚ → ℚ) (e : Engines) (a o l g x y z : ℚ)
    (hw : ∀ w, e.warp = some w → w ≠ st0)
    (hwy : ∀ w, e.warpY = some w → w ≠ st0) :
    applyWarp3D (overridePrim prim st0 g2 g3) e a o l g x y z =
      applyWarp3D prim e a o l g x y z := by
  unfold applyWarp3D
  cases hwe : e.warp with
  | none => rfl
  | some w =>
    by_cases ha : a = 0
    · simp [ha]
    · have hw1 := hw w hwe
      cases hwye : e.warpY with
      | none => simp [ha, hwye, fbm3D_override prim st0 g2 g3 w hw1]
      | some wy =>
        have hw2 := hwy wy hwye
        simp [ha, hwye, fbm3D_override prim st0 g2 g3 w hw1,
          fbm3D_override prim st0 g2 g3 wy hw2]

/-- Overriding the carve-engine state leaves the density function (the
smooth-mode sampler) unchanged: the density function never samples the
carve engine. -/
theorem createDensityFunction_override (prim : NoisePrim) (g2 : ℚ → ℚ → ℚ)
    (g3 : ℚ → ℚ → ℚ → ℚ) (env : JEnv) (p : ChunkProps) (x y z : ℚ) :
    createDensityFunction (overridePrim prim (isoEngine p.noiseSettings) g2 g3) env p x y z =
      createDensityFunction prim env p x y z := by
  have hbase := createNoiseEngines_base_ne_isoEngine p.noiseSettings
  have hw := warp_ne_isoEngine p.noiseSettings
  have hwy := warpY_ne_isoEngine p.noiseSettings
  simp only [createDensityFunction]
  cases hu : p.use3D with
  | true =>
    simp only [if_true]
    rw [applyWarp3D_override prim _ g2 g3 _ _ _ _ _ _ _ _ hw hwy]
    simp [overridePrim, hbase]
  | false =>
    simp only [Bool.false_eq_true, if_false]
    rw [applyWarp2D_override prim _ g2 g3 _ _ _ _ _ _ _ hw hwy]
    simp [overridePrim, hbase]

/-- Overriding the carve-engine state leaves the 3D samples of the
enumerator unchanged. -/
theorem sample3D_override (prim : NoisePrim) (g2 : ℚ → ℚ → ℚ)
    (g3 : ℚ → ℚ → ℚ → ℚ) (p : ChunkProps) (x y z : ℕ) :
    sample3D (overridePrim prim (isoEngine p.noiseSettings) g2 g3) p x y z =
      sample3D prim p x y z := by
  have hbase := createNoiseEngines_base_ne_isoEngine p.noiseSettings
  have hw := warp_ne_isoEngine p.noiseSettings
  have hwy := warpY_ne_isoEngine p.noiseSettings
  simp only [sample3D]
  cases hwe : (createNoiseEngines p.noiseSettings).warp with
  | none => simp [overridePrim, hbase]
  | some w =>
    have hw1 := hw w hwe
    by_cases ha : (warpParams p.noiseSettings).1 ≠ 0
    · cases hwye : (createNoiseEngines p.noiseSettings).warpY with
      | none =>
        simp only [ha, hwye, if_true, Option.getD_none,
          fbm3D_override prim _ g2 g3 w hw1]
        simp [overridePrim, hbase]
      | some wy =>
        have hw2 := hwy wy hwye
        simp only [ha, hwye, if_true, Option.getD_some,
          fbm3D_override prim _ g2 g3 w hw1,
          fbm3D_override prim _ g2 g3 wy hw2]
        simp [overridePrim, hbase]
    · simp [ha, overridePrim, hbase]

/-- Overriding the carve-engine state leaves the 3D enumerator output
unchanged. -/
theorem cubePositions3D_override (prim : NoisePrim) (g2 : ℚ → ℚ → ℚ)
    (g3 : ℚ → ℚ → ℚ → ℚ) (env : JEnv) (p : ChunkProps) (hu : p.use3D = true) :
    cubePositions (overridePrim prim (isoEngine p.noiseSettings) g2 g3) env p =
      cubePositions prim env p := by
  rw [cubePositions_use3D _ _ _ hu, cubePositions_use3D _ _ _ hu]
  simp only [sample3D_override]

/-! ### Removing the warp configuration -/

/-- The settings with no warp configured at all: zero amplitude and no
warp fractal, so `createNoiseEngines` builds no warp engines. -/
def stripWarp (ns : NoiseSettings) : NoiseSettings :=
  { ns with domainWarpAmp := 0, domainWarpFractalType := "None" }

theorem baseEngine_stripWarp (ns : NoiseSettings) :
    baseEngine (stripWarp ns) = baseEngine ns := rfl

theorem createNoiseEngines_stripWarp (ns : NoiseSettings) :
    createNoiseEngines (stripWarp ns) = ⟨baseEngine ns, none, none⟩ := by
  have h : createNoiseEngines (stripWarp ns) = ⟨baseEngine (stripWarp ns), none, none⟩ := by
    simp [createNoiseEngines, stripWarp]
  rw [h, baseEngine_stripWarp]

theorem isoEngine_stripWarp (ns : NoiseSettings) :
    isoEngine (stripWarp ns) = isoEngine ns := by
  unfold isoEngine carveSeed
  rw [createNoiseEngines_stripWarp, createNoiseEngines_base]
  rfl

theorem applyWarp2D_amp0 (prim : NoisePrim) (e : Engines) (o l g x y : ℚ) :
    applyWarp2D prim e 0 o l g x y = (x, y) := by
  unfold applyWarp2D
  cases e.warp <;> simp

theorem applyWarp3D_amp0 (prim : NoisePrim) (e : Engines) (o l g x y z : ℚ) :
    applyWarp3D prim e 0 o l g x y z = (x, y, z) := by
  unfold applyWarp3D
  cases e.warp <;> simp

/-- With warp amplitude `0` the 3D sample is the unwarped base sample,
with or without the rest of the warp configuration. -/
theorem sample3D_stripWarp (prim : NoisePrim) (p : ChunkProps)
    (hamp : p.noiseSettings.domainWarpAmp = 0) (x y z : ℕ) :
    sample3D prim { p with noiseSettings := stripWarp p.noiseSettings } x y z =
      sample3D prim p x y z := by
  simp only [sample3D, createNoiseEngines_stripWarp, createNoiseEngines_base]
  cases hwe : (createNoiseEngines p.noiseSettings).warp with
  | none => rfl
  | some w => simp [warpParams, hamp]

theorem sample2D_stripWarp (prim : NoisePrim) (p : ChunkProps)
    (hamp : p.noiseSettings.domainWarpAmp = 0) (x z : ℕ) :
    sample2D prim { p with noiseSettings := stripWarp p.noiseSettings } x z =
      sample2D prim p x z := by
  simp only [sample2D, createNoiseEngines_stripWarp, createNoiseEngines_base]
  cases hwe : (createNoiseEngines p.noiseSettings).warp with
  | none => rfl
  | some w => simp [warpParams, hamp]

theorem carveValue_stripWarp (prim : NoisePrim) (p : ChunkProps) (x z : ℕ) :
    carveValue prim { p with noiseSettings := stripWarp p.noiseSettings } x z =
      carveValue prim p x z := by
  simp only [carveValue, isoEngine_stripWarp]

/-- `flatMap` with every fibre bounded by `m`. -/
theorem length_flatMap_le {α β : Type} (l : List α) (f : α → List β) (m : ℕ)
    (h : ∀ a ∈ l, (f a).length ≤ m) : (l.flatMap f).length ≤ l.length * m := by
  induction l with
  | nil => simp
  | cons a l ih =>
    simp only [List.flatMap_cons, List.length_append, List.length_cons, Nat.succ_mul]
    have h1 := h a (List.mem_cons_self a l)
    have h2 := ih (fun b hb => h b (List.mem_cons_of_mem a hb))
    omega

/-! ## Concrete fixtures for witnesses and counterexamples -/

/-- A fully-populated settings record (Value noise, no fractal, no warp). -/
def testNS : NoiseSettings :=
  { noiseType := "Value", rotationType3D := "None", seed := 1, frequency := 1/10,
    fractalType := "None", fractalOctaves := 3, fractalLacunarity := 2,
    fractalGain := 1/2, fractalWeightedStrength := 0, fractalPingPongStrength := 2,
    cellularDistanceFunction := "EuclideanSq", cellularReturnType := "Distance",
    cellularJitter := 1, domainWarpType := "OpenSimplex2", domainWarpAmp := 0,
    domainWarpSeed := none, domainWarpFrequency := none,
    domainWarpFractalType := "None", domainWarpFractalOctaves := 3,
    domainWarpFractalLacunarity := 2, domainWarpFractalGain := 1/2 }

/-- A sampler that is constantly `1` (any pure function is admissible for
the abstract FastNoiseLite sampler). -/
def constPrim : NoisePrim := ⟨fun _ _ _ => 1, fun _ _ _ _ => 1⟩

/-- A 1×1×1 volumetric blocky grid over `testNS`. -/
def props3D1 : ChunkProps :=
  { sizeX := 1, sizeY := 1, sizeZ := 1, noiseSettings := testNS, use3D := true }

/-- A 2×3×1 height-mode blocky grid over `testNS`. -/
def props2D1 : ChunkProps :=
  { sizeX := 2, sizeY := 3, sizeZ := 1, noiseSettings := testNS, use3D := false,
    verticalOffset := 1, amplitude := 0 }

/-- A grid with a nonpositive dimension. -/
def props0 : ChunkProps :=
  { sizeX := 0, sizeY := 3, sizeZ := 1, noiseSettings := testNS, use3D := true }

/-- An ambient environment where `Date.now()` answers `t`: two values of
`t` model the same page observed at two instants. -/
def dateEnv (t : ℚ) : JEnv := fun s =>
  if s = "Date" then
    some (JVal.object (fun m => if m = "now" then some (fun _ => some t) else none))
  else none

/-- The settings of the spec §8 end-to-end scenario. -/
def scenarioNS : NoiseSettings :=
  { noiseType := "Value", rotationType3D := "None", seed := 1, frequency := 1/10,
    fractalType := "None", fractalOctaves := 3, fractalLacunarity := 2,
    fractalGain := 1/2, fractalWeightedStrength := 0, fractalPingPongStrength := 2,
    cellularDistanceFunction := "EuclideanSq", cellularReturnType := "Distance",
    cellularJitter := 1, domainWarpType := "OpenSimplex2", domainWarpAmp := 0,
    domainWarpSeed := none, domainWarpFrequency := none,
    domainWarpFractalType := "None", domainWarpFractalOctaves := 3,
    domainWarpFractalLacunarity := 2, domainWarpFractalGain := 1/2 }

/-- The grid of the spec §8 end-to-end scenario. -/
def scenarioProps : ChunkProps :=
  { sizeX := 8, sizeY := 8, sizeZ := 8, isolevel := 0, use3D := true,
    mathExpression := "N", noiseSettings := scenarioNS }

/-! ## Claims -/

/-- C2 (counterexample): the claim additionally asserts a distinct,
observable error signal alongside the fallback value.  The evaluator's
entire observable output is the returned number: on the malformed input
`"not an expression"` with `N = 0.3` the pipeline fails (second conjunct)
yet the returned value is exactly the value also returned for the
well-formed expression `"N"` — a caller receives nothing that
distinguishes the fallback from a successful evaluation. -/
theorem claim_C2_counterexample :
    evaluateMathExpression emptyEnv "not an expression" (3/10) =
        evaluateMathExpression emptyEnv "N" (3/10) ∧
      evalPipeline emptyEnv "not an expression" (3/10) = none := by
  decide

/-- C2 (amended): for every expression and noise value, whenever the
evaluation pipeline fails (malformed input, thrown error, or non-finite
result), `evaluateMathExpression` returns the original noise value
unchanged and without raising — but silently: no error signal accompanies
the fallback. -/
theorem claim_C2 (env : JEnv) (e : String) (N : ℚ)
    (h : evalPipeline env e N = none) : evaluateMathExpression env e N = N := by
  rw [evaluateMathExpression, h]

/-- C2 (witness). -/
theorem claim_C2_witness :
    evaluateMathExpression emptyEnv "not an expression" (3/10) = 3/10 :=
  claim_C2 emptyEnv "not an expression" (3/10) (by decide)

/-- C4 (counterexample): the evaluator compiles the user string as host
code (`new Function`), whose free identifiers read the ambient global
environment; for the expression `"Date.now()"` the result differs between
two ambient states with the same `(expression, N)` pair, so the result
does not depend on `(expression, N)` alone. -/
theorem claim_C4_counterexample :
    evaluateMathExpression (dateEnv 1) "Date.now()" 0 = 1 ∧
      evaluateMathExpression (dateEnv 2) "Date.now()" 0 = 2 := by
  decide

/-- C4 (amended): the compiled expression evaluates against the ambient
global environment, so purity holds only conditionally: any expression
whose evaluation succeeds with no global access at all (in particular the
documented grammar over `N`, numerals, arithmetic and `Math`) yields the
same value under every ambient environment. -/
theorem claim_C4 (env : JEnv) (e : String) (N : ℚ)
    (h : evalPipeline emptyEnv e N ≠ none) :
    evaluateMathExpression env e N = evaluateMathExpression emptyEnv e N := by
  obtain ⟨r, hr⟩ := Option.ne_none_iff_exists'.mp h
  rw [evaluateMathExpression, evaluateMathExpression, hr,
    evalPipeline_env_of_some e N r env hr]

/-- C4 (witness). -/
theorem claim_C4_witness :
    evaluateMathExpression (dateEnv 1) "N^2" (1/2) =
      evaluateMathExpression emptyEnv "N^2" (1/2) :=
  claim_C4 (dateEnv 1) "N^2" (1/2) (by decide)

/-- C9: the worked examples of the Expression Evaluator, under every
ambient environment: `evaluate("N^2", 0.5) = 0.25`,
`evaluate("|N|*2", -0.5) = 1.0`, and `evaluate("not an expression", 0.3)`
falls back to `0.3`. -/
theorem claim_C9 (env : JEnv) :
    evaluateMathExpression env "N^2" (1/2) = 1/4 ∧
      evaluateMathExpression env "|N|*2" (-(1/2)) = 1 ∧
      evaluateMathExpression env "not an expression" (3/10) = 3/10 := by
  refine ⟨?_, ?_, ?_⟩
  · have h : evalPipeline emptyEnv "N^2" (1/2) = some (1/4) := by decide
    rw [evaluateMathExpression, evalPipeline_env_of_some _ _ _ env h]
  · have h : evalPipeline emptyEnv "|N|*2" (-(1/2)) = some 1 := by decide
    rw [evaluateMathExpression, evalPipeline_env_of_some _ _ _ env h]
  · have hlex : lex (caretRewrite (caretRewrite (absRewrite
        (subN "not an expression" (3/10))))) =
        some [Tok.id "not", Tok.id "an", Tok.id "expression"] := by decide
    have hp : parseExpr [Tok.id "not", Tok.id "an", Tok.id "expression"] = none := rfl
    rw [evaluateMathExpression, evalPipeline, hlex]
    simp only [hp]

/-- C10: the 2D blocky enumerator's base engine keeps a supplied seed of
`0` (`seed ?? 12345`), but its secondary carve engine is seeded with
`(seed || 12345) + 1000`, where `0` is falsy: with seed `0` the carve
seed is `13345`, not `1000`; for every nonzero seed it is `seed + 1000`. -/
theorem claim_C10 (ns : NoiseSettings) :
    (ns.seed = 0 → (baseEngine ns).seed = some 0 ∧ (isoEngine ns).seed = some 13345) ∧
      (ns.seed ≠ 0 → (isoEngine ns).seed = some (ns.seed + 1000)) := by
  constructor
  · intro h0
    constructor
    · rw [baseEngine_seed, h0]
    · rw [isoEngine_seed]
      unfold carveSeed
      rw [if_pos h0]
      norm_num
  · intro hne
    rw [isoEngine_seed]
    unfold carveSeed
    rw [if_neg hne]

/-- C10 (witness). -/
theorem claim_C10_witness :
    ((baseEngine { testNS with seed := 0 }).seed = some 0 ∧
        (isoEngine { testNS with seed := 0 }).seed = some 13345) ∧
      (isoEngine testNS).seed = some (testNS.seed + 1000) :=
  ⟨(claim_C10 { testNS with seed := 0 }).1 rfl,
    (claim_C10 testNS).2 (by norm_num [testNS])⟩

/-- C3: determinism of the generation pipeline.  All pipeline definitions
are pure functions of the configuration and the (spec-modelled,
deterministic) noise sampler: with the configuration fixed, the sampled
density scalar and the enumerated VoxelSet of the 8×8×8 `use3D`,
`isolevel = 0`, Value-noise, seed 1, frequency 0.1, no-fractal, no-warp,
expression `"N"` scenario are not merely reproducible across runs but
independent even of the ambient host environment two separate runs might
differ in. -/
theorem claim_C3 (prim : NoisePrim) (env1 env2 : JEnv) :
    (∀ x y z : ℚ, createDensityFunction prim env1 scenarioProps x y z =
        createDensityFunction prim env2 scenarioProps x y z) ∧
      cubePositions prim env1 scenarioProps = cubePositions prim env2 scenarioProps := by
  constructor
  · intro x y z
    simp only [createDensityFunction,
      show scenarioProps.use3D = true from rfl, if_true,
      show scenarioProps.mathExpression = "N" from rfl, evaluate_N]
  · rw [cubePositions_use3D prim env1 scenarioProps rfl,
      cubePositions_use3D prim env2 scenarioProps rfl]
    simp only [show scenarioProps.mathExpression = "N" from rfl, evaluate_N]

/-- C5: in 2D/height mode the density function returns `y − h` where
`h = verticalOffset + transformed·amplitude` and `transformed` is the
Expression-Evaluator image of the 2D base sample taken at
`(x+offsetX, z+offsetZ)` after domain warp. -/
theorem claim_C5 (prim : NoisePrim) (env : JEnv) (p : ChunkProps)
    (h2 : p.use3D = false) (x y z : ℚ) :
    createDensityFunction prim env p x y z =
      y - (p.verticalOffset +
        evaluateMathExpression env p.mathExpression
          (prim.f2 (createNoiseEngines p.noiseSettings).base
            (applyWarp2D prim (createNoiseEngines p.noiseSettings)
              (warpParams p.noiseSettings).1 (warpParams p.noiseSettings).2.1
              (warpParams p.noiseSettings).2.2.1 (warpParams p.noiseSettings).2.2.2
              (x + p.offsetX) (z + p.offsetZ)).1
            (applyWarp2D prim (createNoiseEngines p.noiseSettings)
              (warpParams p.noiseSettings).1 (warpParams p.noiseSettings).2.1
              (warpParams p.noiseSettings).2.2.1 (warpParams p.noiseSettings).2.2.2
              (x + p.offsetX) (z + p.offsetZ)).2) * p.amplitude) := by
  simp only [createDensityFunction, h2, Bool.false_eq_true, if_false]

/-- C5 (witness): on the concrete 2D fixture the density at `(0, 5, 0)`
is `5 − (1 + evaluate("N", 1)·0)`. -/
theorem claim_C5_witness :
    createDensityFunction constPrim emptyEnv props2D1 0 5 0 =
      5 - (props2D1.verticalOffset +
        evaluateMathExpression emptyEnv props2D1.mathExpression
          (constPrim.f2 (createNoiseEngines props2D1.noiseSettings).base
            (applyWarp2D constPrim (createNoiseEngines props2D1.noiseSettings)
              (warpParams props2D1.noiseSettings).1 (warpParams props2D1.noiseSettings).2.1
              (warpParams props2D1.noiseSettings).2.2.1 (warpParams props2D1.noiseSettings).2.2.2
              (0 + props2D1.offsetX) (0 + props2D1.offsetZ)).1
            (applyWarp2D constPrim (createNoiseEngines props2D1.noiseSettings)
              (warpParams props2D1.noiseSettings).1 (warpParams props2D1.noiseSettings).2.1
              (warpParams props2D1.noiseSettings).2.2.1 (warpParams props2D1.noiseSettings).2.2.2
              (0 + props2D1.offsetX) (0 + props2D1.offsetZ)).2) * props2D1.amplitude) :=
  claim_C5 constPrim emptyEnv props2D1 rfl 0 5 0

/-- C1 (counterexample): with the constant sampler `1`, expression `"N"`
and `isolevel = 0` on a 1×1×1 volumetric blocky grid, the enumerator
marks cell `(0,0,0)` solid (it tests the evaluator image of the *raw*
sample, `+1 > 0`), while the 3D-mode density function — which negates the
sample before the evaluator — gives `density(0,0,0) = −1 ≤ isolevel`.
So "solid iff density > isolevel" is false at this input. -/
theorem claim_C1_counterexample :
    ((0 : ℚ), (0 : ℚ), (0 : ℚ)) ∈ cubePositions constPrim emptyEnv props3D1 ∧
      ¬ (createDensityFunction constPrim emptyEnv props3D1 0 0 0 > props3D1.isolevel) := by
  decide

/-- C1 (amended): in 3D/volumetric blocky mode the enumerator marks cell
`(x,y,z)` solid iff the Expression-Evaluator image of the **raw,
un-negated** warped 3D base sample exceeds the isolevel; the negation
(`-base.GetNoise`) belongs only to the smooth-mode density function and
is absent from the blocky branch. -/
theorem claim_C1 (prim : NoisePrim) (env : JEnv) (p : ChunkProps)
    (h3 : p.use3D = true) (_hb : p.isSmooth = false) (x y z : ℕ)
    (hx : x < p.sizeX.toNat) (hy : y < p.sizeY.toNat) (hz : z < p.sizeZ.toNat) :
    (centered p.sizeX x, centered p.sizeY y, centered p.sizeZ z) ∈
        cubePositions prim env p ↔
      evaluateMathExpression env p.mathExpression (sample3D prim p x y z) >
        p.isolevel := by
  rw [mem_cubePositions3D_iff prim env p h3 x y z]
  simp [hx, hy, hz]

/-- C1 (witness). -/
theorem claim_C1_witness :
    ((centered props3D1.sizeX 0, centered props3D1.sizeY 0, centered props3D1.sizeZ 0) ∈
        cubePositions constPrim emptyEnv props3D1 ↔
      evaluateMathExpression emptyEnv props3D1.mathExpression
          (sample3D constPrim props3D1 0 0 0) > props3D1.isolevel) :=
  claim_C1 constPrim emptyEnv props3D1 rfl rfl 0 0 0 (by decide) (by decide) (by decide)

theorem columnHeight_stripWarp (prim : NoisePrim) (env : JEnv) (p : ChunkProps)
    (hamp : p.noiseSettings.domainWarpAmp = 0) (x z : ℕ) :
    columnHeight prim env { p with noiseSettings := stripWarp p.noiseSettings } x z =
      columnHeight prim env p x z := by
  simp only [columnHeight, sample2D_stripWarp prim p hamp]

/-- C7: with warp amplitude `0`, the whole warp configuration is inert:
the density function and the enumerator output coincide with those of the
same settings with no warp configured at all (`stripWarp`: amplitude `0`
and warp fractal `'None'`, under which `createNoiseEngines` builds no
warp engines). -/
theorem claim_C7 (prim : NoisePrim) (env : JEnv) (p : ChunkProps)
    (hamp : p.noiseSettings.domainWarpAmp = 0) :
    (∀ x y z : ℚ,
        createDensityFunction prim env
            { p with noiseSettings := stripWarp p.noiseSettings } x y z =
          createDensityFunction prim env p x y z) ∧
      cubePositions prim env { p with noiseSettings := stripWarp p.noiseSettings } =
        cubePositions prim env p := by
  have hw1 : (warpParams p.noiseSettings).1 = 0 := hamp
  have hw2 : (warpParams (stripWarp p.noiseSettings)).1 = 0 := rfl
  constructor
  · intro x y z
    simp only [createDensityFunction]
    cases hu : p.use3D with
    | true =>
      have hu2 : ({ p with noiseSettings := stripWarp p.noiseSettings } :
          ChunkProps).use3D = true := hu
      simp only [hu, hu2, if_true, hw1, hw2, applyWarp3D_amp0,
        createNoiseEngines_stripWarp, createNoiseEngines_base]
    | false =>
      have hu2 : ({ p with noiseSettings := stripWarp p.noiseSettings } :
          ChunkProps).use3D = false := hu
      simp only [hu, hu2, Bool.false_eq_true, if_false, hw1, hw2, applyWarp2D_amp0,
        createNoiseEngines_stripWarp, createNoiseEngines_base]
  · rcases Bool.eq_false_or_eq_true p.use3D with hu | hu
    · have hu2 : ({ p with noiseSettings := stripWarp p.noiseSettings } :
          ChunkProps).use3D = true := hu
      rw [cubePositions_use3D prim env _ hu2, cubePositions_use3D prim env p hu]
      simp only [sample3D_stripWarp prim p hamp]
    · have hu2 : ({ p with noiseSettings := stripWarp p.noiseSettings } :
          ChunkProps).use3D = false := hu
      rw [cubePositions_use2D prim env _ hu2, cubePositions_use2D prim env p hu]
      simp only [columnHeight_stripWarp prim env p hamp,
        carveValue_stripWarp prim p]

/-- C7 (witness). -/
theorem claim_C7_witness :
    cubePositions constPrim emptyEnv
        { props3D1 with noiseSettings := stripWarp props3D1.noiseSettings } =
      cubePositions constPrim emptyEnv props3D1 :=
  (claim_C7 constPrim emptyEnv props3D1 rfl).2

/-- A nonpositive dimension empties every loop of the completed value. -/
theorem cubePositions_empty_of_nonpos (prim : NoisePrim) (env : JEnv) (p : ChunkProps)
    (h : p.sizeX ≤ 0 ∨ p.sizeY ≤ 0 ∨ p.sizeZ ≤ 0) : cubePositions prim env p = [] := by
  rcases Bool.eq_false_or_eq_true p.use3D with hu | hu
  · rw [cubePositions_use3D prim env p hu]
    rcases h with h | h | h
    · rw [Int.toNat_of_nonpos h]
      simp
    · rw [Int.toNat_of_nonpos h]
      simp [List.flatMap_eq_nil_iff]
    · rw [Int.toNat_of_nonpos h]
      simp [List.flatMap_eq_nil_iff]
  · rw [cubePositions_use2D prim env p hu]
    rcases h with h | h | h
    · rw [Int.toNat_of_nonpos h]
      simp
    · have hy : ∀ hgt : ℤ, yCount hgt p.sizeY = 0 := by
        intro hgt
        unfold yCount
        apply Int.toNat_of_nonpos
        exact le_trans (min_le_right _ _) h
      simp [hy, List.flatMap_eq_nil_iff]
    · rw [Int.toNat_of_nonpos h]
      simp [List.flatMap_eq_nil_iff]

/-- A 2D blocky grid whose cache-allocation length `sizeX·sizeZ` is
negative. -/
def propsNeg : ChunkProps :=
  { sizeX := 1, sizeY := 3, sizeZ := -1, noiseSettings := testNS, use3D := false }

/-- C8 (counterexample): a nonpositive dimension does not always give
empty output rather than a fault: with `sizeX = 1`, `sizeZ = −1` in 2D
blocky mode the branch's `new Array(sizeX * sizeZ)` is `new Array(-1)`,
which throws `RangeError` (modelled as `none`) before any loop runs — the
run faults instead of completing with `[]`. -/
theorem claim_C8_counterexample :
    propsNeg.sizeZ ≤ 0 ∧ propsNeg.use3D = false ∧
      cubePositionsRun constPrim emptyEnv propsNeg = none := by
  decide

/-- C8 (amended): the enumerator only emits re-centered images of
in-range integer grid indices and never more of them than
`sizeX·sizeY·sizeZ`.  A nonpositive dimension yields empty output in 3D
mode, and in 2D mode whenever the cache-allocation length `sizeX·sizeZ`
is a valid array length (in particular whenever it is nonnegative and
below `2^32`); but in 2D mode with `sizeX·sizeZ` an invalid array length
the run faults with a `RangeError` from `new Array` instead of producing
output. -/
theorem claim_C8 (prim : NoisePrim) (env : JEnv) (p : ChunkProps) :
    (∀ q ∈ cubePositions prim env p, ∃ x y z : ℕ,
        (x : ℤ) < p.sizeX ∧ (y : ℤ) < p.sizeY ∧ (z : ℤ) < p.sizeZ ∧
        q = (centered p.sizeX x, centered p.sizeY y, centered p.sizeZ z)) ∧
      (cubePositions prim env p).length ≤
        p.sizeX.toNat * p.sizeY.toNat * p.sizeZ.toNat ∧
      (p.sizeX ≤ 0 ∨ p.sizeY ≤ 0 ∨ p.sizeZ ≤ 0 →
        (p.use3D = true ∨ jsArrayLengthValid (p.sizeX * p.sizeZ) →
          cubePositionsRun prim env p = some []) ∧
        (p.use3D = false ∧ ¬ jsArrayLengthValid (p.sizeX * p.sizeZ) →
          cubePositionsRun prim env p = none)) := by
  rcases Bool.eq_false_or_eq_true p.use3D with hu | hu
  · rw [cubePositions_use3D prim env p hu]
    refine ⟨?_, ?_, ?_⟩
    · intro q hq
      simp only [List.mem_flatMap, List.mem_filterMap, List.mem_range] at hq
      obtain ⟨a, ha, b, hb, c, hc, hsome⟩ := hq
      by_cases hcond : evaluateMathExpression env p.mathExpression
          (sample3D prim p a b c) > p.isolevel
      · rw [if_pos hcond] at hsome
        exact ⟨a, b, c, Int.lt_toNat.mp ha, Int.lt_toNat.mp hb, Int.lt_toNat.mp hc,
          (Option.some.inj hsome).symm⟩
      · rw [if_neg hcond] at hsome
        exact absurd hsome (by simp)
    · calc ((List.range p.sizeX.toNat).flatMap _).length
          ≤ (List.range p.sizeX.toNat).length * (p.sizeY.toNat * p.sizeZ.toNat) := by
            apply length_flatMap_le
            intro a _
            calc ((List.range p.sizeY.toNat).flatMap _).length
                ≤ (List.range p.sizeY.toNat).length * p.sizeZ.toNat := by
                  apply length_flatMap_le
                  intro b _
                  exact le_trans (List.length_filterMap_le _ _)
                    (le_of_eq (List.length_range _))
              _ = p.sizeY.toNat * p.sizeZ.toNat := by rw [List.length_range]
        _ = p.sizeX.toNat * p.sizeY.toNat * p.sizeZ.toNat := by
            rw [List.length_range]
            ring
    · intro hdims
      have hempty := cubePositions_empty_of_nonpos prim env p hdims
      constructor
      · intro _
        simp [cubePositionsRun, hu, hempty]
      · rintro ⟨hu3, _⟩
        rw [hu] at hu3
        exact absurd hu3 (by simp)
  · rw [cubePositions_use2D prim env p hu]
    refine ⟨?_, ?_, ?_⟩
    · intro q hq
      simp only [List.mem_flatMap, List.mem_filterMap, List.mem_range] at hq
      obtain ⟨a, ha, c, hc, b, hb, hsome⟩ := hq
      by_cases hcond : carveValue prim p a c > p.isolevel
      · rw [if_pos hcond] at hsome
        refine ⟨a, b, c, Int.lt_toNat.mp ha, ?_, Int.lt_toNat.mp hc,
          (Option.some.inj hsome).symm⟩
        have hb2 : (b : ℤ) < min (columnHeight prim env p a c + 1) p.sizeY :=
          Int.lt_toNat.mp hb
        exact lt_of_lt_of_le hb2 (min_le_right _ _)
      · rw [if_neg hcond] at hsome
        exact absurd hsome (by simp)
    · calc ((List.range p.sizeX.toNat).flatMap _).length
          ≤ (List.range p.sizeX.toNat).length * (p.sizeZ.toNat * p.sizeY.toNat) := by
            apply length_flatMap_le
            intro a _
            calc ((List.range p.sizeZ.toNat).flatMap _).length
                ≤ (List.range p.sizeZ.toNat).length * p.sizeY.toNat := by
                  apply length_flatMap_le
                  intro c _
                  apply le_trans (List.length_filterMap_le _ _)
                  rw [List.length_range]
                  exact Int.toNat_le_toNat (min_le_right _ _)
              _ = p.sizeZ.toNat * p.sizeY.toNat := by rw [List.length_range]
        _ ≤ p.sizeX.toNat * p.sizeY.toNat * p.sizeZ.toNat := by
            rw [List.length_range]
            exact le_of_eq (by ring)
    · intro hdims
      have hempty := cubePositions_empty_of_nonpos prim env p hdims
      constructor
      · rintro (hu3 | hval)
        · rw [hu] at hu3
          exact absurd hu3 (by simp)
        · simp [cubePositionsRun, hu, hval, hempty]
      · rintro ⟨_, hval⟩
        simp [cubePositionsRun, hu, hval]

/-- C8 (witness). -/
theorem claim_C8_witness :
    (∃ x y z : ℕ,
        (x : ℤ) < props3D1.sizeX ∧ (y : ℤ) < props3D1.sizeY ∧ (z : ℤ) < props3D1.sizeZ ∧
        ((0 : ℚ), (0 : ℚ), (0 : ℚ)) =
          (centered props3D1.sizeX x, centered props3D1.sizeY y, centered props3D1.sizeZ z)) ∧
      cubePositionsRun constPrim emptyEnv props0 = some [] ∧
      cubePositionsRun constPrim emptyEnv propsNeg = none :=
  ⟨(claim_C8 constPrim emptyEnv props3D1).1 ((0 : ℚ), (0 : ℚ), (0 : ℚ)) (by decide),
    ((claim_C8 constPrim emptyEnv props0).2.2 (Or.inl (by decide))).1 (Or.inl rfl),
    ((claim_C8 constPrim emptyEnv propsNeg).2.2 (Or.inr (Or.inr (by decide)))).2
      ⟨rfl, by decide⟩⟩

/-- C6: in blocky 2D mode, a column whose secondary carve-noise value is
`≤ isolevel` contributes no voxel at all; otherwise exactly the integer
heights `0 ≤ y ≤ columnHeight` clamped to `y < sizeY` are solid.  The
secondary field (the independently-seeded carve engine) has no effect in
smooth mode (the density function) or volumetric mode (the 3D
enumerator): overriding the sampler at the carve-engine state with
arbitrary noise fields changes neither. -/
theorem claim_C6 (prim : NoisePrim) (env : JEnv) (p : ChunkProps)
    (h2 : p.use3D = false) (x z : ℕ)
    (hx : x < p.sizeX.toNat) (hz : z < p.sizeZ.toNat) :
    (carveValue prim p x z ≤ p.isolevel →
        ∀ y : ℕ, (centered p.sizeX x, centered p.sizeY y, centered p.sizeZ z) ∉
          cubePositions prim env p) ∧
      (carveValue prim p x z > p.isolevel →
        ∀ y : ℕ, ((centered p.sizeX x, centered p.sizeY y, centered p.sizeZ z) ∈
            cubePositions prim env p ↔
          ((y : ℤ) ≤ columnHeight prim env p x z ∧ (y : ℤ) < p.sizeY))) ∧
      (∀ (g2 : ℚ → ℚ → ℚ) (g3 : ℚ → ℚ → ℚ → ℚ) (q : ChunkProps) (a b c : ℚ),
        createDensityFunction (overridePrim prim (isoEngine q.noiseSettings) g2 g3)
            env q a b c =
          createDensityFunction prim env q a b c) ∧
      (∀ (g2 : ℚ → ℚ → ℚ) (g3 : ℚ → ℚ → ℚ → ℚ) (q : ChunkProps), q.use3D = true →
        cubePositions (overridePrim prim (isoEngine q.noiseSettings) g2 g3) env q =
          cubePositions prim env q) := by
  refine ⟨?_, ?_, ?_, ?_⟩
  · intro hle y hmem
    rw [mem_cubePositions2D_iff prim env p h2 x y z] at hmem
    obtain ⟨_, _, _, hgt⟩ := hmem
    exact absurd hgt (not_lt.mpr hle)
  · intro hgt y
    rw [mem_cubePositions2D_iff prim env p h2 x y z]
    constructor
    · rintro ⟨_, _, hy, _⟩
      have hy1 : y < (min (columnHeight prim env p x z + 1) p.sizeY).toNat := hy
      have hy2 : (y : ℤ) < min (columnHeight prim env p x z + 1) p.sizeY :=
        Int.lt_toNat.mp hy1
      rw [lt_min_iff] at hy2
      exact ⟨by omega, hy2.2⟩
    · rintro ⟨h1, hsy⟩
      refine ⟨hx, hz, ?_, hgt⟩
      show y < (min (columnHeight prim env p x z + 1) p.sizeY).toNat
      apply Int.lt_toNat.mpr
      rw [lt_min_iff]
      exact ⟨by omega, hsy⟩
  · intro g2 g3 q a b c
    exact createDensityFunction_override prim g2 g3 env q a b c
  · intro g2 g3 q hq
    exact cubePositions3D_override prim g2 g3 env q hq

/-- C6 (witness). -/
theorem claim_C6_witness :
    (centered props2D1.sizeX 0, centered props2D1.sizeY 0, centered props2D1.sizeZ 0) ∈
        cubePositions constPrim emptyEnv props2D1 ↔
      ((0 : ℤ) ≤ columnHeight constPrim emptyEnv props2D1 0 0 ∧
        (0 : ℤ) < props2D1.sizeY) :=
  (claim_C6 constPrim emptyEnv props2D1 rfl 0 0 (by decide) (by decide)).2.1
    (by decide) 0

end NoiseViz
